import Mathlib

/-!
# zypper `update.cc`: issue filters, patch status, update candidates

A shallow embedding of `src/src/update.cc`.  Collaborators that live outside
that file (the libzypp pool, `PoolQuery`, the resolver, `SolverRequester`,
`Table`, gettext, colours) are explicit parameters or small models, each
marked as such.
-/

namespace ZypperUpdate

/-! ## Pool data model -/

/-- Handle of a pool item (`zypp::PoolItem`): the id of the underlying solvable.
All attributes are read through the pool; `std::set<PoolItem>` orders by it. -/
abbrev PoolItem := Nat

/-- Values of `ResStatus::ValidateValue` that `update.cc` switches on, and
`other` for every value that reaches the `default:` label. -/
inductive ValidateValue where
  | UNDETERMINED
  | BROKEN
  | SATISFIED
  | NONRELEVANT
  | other (raw : Nat)
  deriving DecidableEq, Repr

/-- A resource kind (`zypp::ResKind`), identified by its name. -/
structure ResKind where
  name : String
  deriving DecidableEq, Repr

/-- The kind `ResKind::package`. -/
def ResKind.package : ResKind := ⟨"package"⟩

/-- The kind `ResKind::patch`. -/
def ResKind.patch : ResKind := ⟨"patch"⟩

/-- The attributes of a `zypp::Patch` that `update.cc` reads. -/
structure Patch where
  name : String
  category : String
  severity : String
  summary : String
  description : String
  /-- reader `interactiveFlags()`, as the bit set -/
  interactiveFlags : Nat
  restartSuggested : Bool
  /-- test `categoryEnum() == Patch::CAT_SECURITY` -/
  isSecurity : Bool
  /-- the issue references of the patch, as (type, id) pairs -/
  references : List (String × String)
  deriving DecidableEq, Repr

/-- One `ui::Selectable`: the installed object and the highest available
version object of one (kind, name) identity; `none` is the empty `PoolItem`. -/
structure Selectable where
  installedObj : Option PoolItem
  highestAvailableVersionObj : Option PoolItem
  deriving DecidableEq, Repr

/-- Member `hasInstalledObj()` of a selectable. -/
def Selectable.hasInstalledObj (s : Selectable) : Bool := s.installedObj.isSome

/-- The pool snapshot (`God->pool()`), as the attribute readers used by `update.cc`. -/
structure ResPool where
  /-- all items, in pool order: `pool().begin() .. pool().end()` -/
  items : List PoolItem
  kind : PoolItem → ResKind
  name : PoolItem → String
  /-- reader `pi.status().validate()` -/
  validate : PoolItem → ValidateValue
  /-- reader `pi.isUnwanted()` -/
  isUnwanted : PoolItem → Bool
  /-- reader `pi.status().isToBeInstalled()` -/
  isToBeInstalled : PoolItem → Bool
  /-- cast `asKind<Patch>(pi)` -/
  asPatch : PoolItem → Patch
  /-- selectables of a kind: `pool.proxy().byKindBegin(kind) .. byKindEnd(kind)` -/
  proxyByKind : ResKind → List Selectable
  /-- lookup `ui::Selectable::get(kind, name)` -/
  selectableGet : ResKind → String → Selectable
  /-- libzypp's `compareByNVRA( lhs, rhs )`: negative, zero or positive -/
  compareByNVRA : PoolItem → PoolItem → Int

/-- Reader `pi.isBroken()`: libzypp answers it from the validation field,
`status().validate() == ResStatus::BROKEN`. -/
def ResPool.isBroken (pool : ResPool) (pi : PoolItem) : Bool :=
  decide (pool.validate pi = ValidateValue.BROKEN)

/-- The parts of the `Zypper` singleton that `update.cc` consults. -/
structure Zypper where
  /-- accessor `cOptValues(name)`: the raw values given for a command option -/
  cOptValues : String → List String
  /-- accessor `cOpts().count(name)` -/
  cOptsCount : String → Nat
  /-- the translation `_( )` of a message -/
  gettext : String → String
  /-- rendering `ColorString( s, ColorContext::HIGHLIGHT ).str()` -/
  highlight : String → String
  /-- the patch filter `CliMatchPatch( zypper )` -/
  cliMatchPatch : Patch → Bool
  /-- libzypp's `stringify( flags, names, "", ",", "" )` as called by `interactiveFlags` -/
  stringifyFlags : Nat → String
  /-- the exit code `ZYPPER_EXIT_INF_CAP_NOT_FOUND` of `main.h` -/
  ZYPPER_EXIT_INF_CAP_NOT_FOUND : Int

/-- What is written to `zypper.out()` or `cout`. -/
inductive OutEvent where
  /-- message `out().warning( str::form( fmt, args ) )` -/
  | warning (fmt : String) (args : List String)
  /-- message `out().info( str::form( fmt, args ) )` -/
  | info (fmt : String) (args : List String)
  /-- a line end written to `cout` -/
  | endl
  /-- a table written to `cout`, as its rows -/
  | table (rows : List (List String))
  deriving DecidableEq, Repr

/-- Insertion into a `std::set` kept as its ascending, duplicate-free sequence
of elements: an element equivalent to one already stored is not inserted. -/
def stdSetInsert {α : Type} (lt : α → α → Bool) (a : α) : List α → List α
  | [] => [a]
  | b :: s =>
    if lt a b then a :: b :: s
    else if lt b a then b :: stdSetInsert lt a s
    else b :: s

/-! ## Patch status -/

/-- Function `patchIsApplicable`: needed and not locked. -/
def patchIsApplicable (pool : ResPool) (pi : PoolItem) : Bool :=
  pool.isBroken pi && !pool.isUnwanted pi

/-- Function `i18nPatchStatusAsString`. -/
def i18nPatchStatusAsString (z : Zypper) (pool : ResPool) (pi_r : PoolItem) : String :=
  match pool.validate pi_r with
  | .BROKEN => if pool.isUnwanted pi_r then z.highlight (z.gettext "unwanted") else z.gettext "needed"
  | .SATISFIED => z.gettext "applied"
  | .NONRELEVANT => z.gettext "not needed"
  | .UNDETERMINED => z.gettext "undetermined"
  | .other _ => z.gettext "undetermined"

/-- Function `xml_patchStatusAsString`. -/
def xml_patchStatusAsString (pool : ResPool) (pi_r : PoolItem) : String :=
  match pool.validate pi_r with
  | .BROKEN => if pool.isUnwanted pi_r then "unwanted" else "needed"
  | .SATISFIED => "applied"
  | .NONRELEVANT => "not-needed"
  | .UNDETERMINED => "undetermined"
  | .other _ => "undetermined"

/-- The closed set of status labels of the specification. -/
inductive Status where
  | Needed
  | Locked
  | Applied
  | NotNeeded
  | Undetermined
  deriving DecidableEq, Repr

/-- The specification's table `classify(validationState, isLocked)`, written
from the specification (not from the code). -/
def specClassify (validationState : ValidateValue) (isLocked : Bool) : Status :=
  match validationState, isLocked with
  | .BROKEN, true => .Locked
  | .BROKEN, false => .Needed
  | .SATISFIED, _ => .Applied
  | .NONRELEVANT, _ => .NotNeeded
  | _, _ => .Undetermined

/-- The text that the table output prints for a status label. -/
def Status.i18nText (z : Zypper) : Status → String
  | .Needed => z.gettext "needed"
  | .Locked => z.highlight (z.gettext "unwanted")
  | .Applied => z.gettext "applied"
  | .NotNeeded => z.gettext "not needed"
  | .Undetermined => z.gettext "undetermined"

/-- The text that the XML output prints for a status label. -/
def Status.xmlText : Status → String
  | .Needed => "needed"
  | .Locked => "unwanted"
  | .Applied => "applied"
  | .NotNeeded => "not-needed"
  | .Undetermined => "undetermined"

/-- The items of a kind in pool order:
`pool().byKindBegin(kind) .. pool().byKindEnd(kind)`. -/
def ResPool.byKind (pool : ResPool) (kind : ResKind) : List PoolItem :=
  pool.items.filter (fun pi => pool.kind pi == kind)

/-- The message helpers that `patch_check` calls. -/
structure Messages where
  /-- plural translation `PL_( singular, plural, n )` -/
  ngettext : String → String → Nat → String
  /-- formatting `str::Format( fmt ) % n` -/
  format : String → Nat → String

/-- The counters of `patch_check`: `gData.patches_count`,
`gData.security_patches_count` and the local `lockedPatches`.  They are
`unsigned` in the source and count items of the pool, whose solvable ids are
`int`, so they cannot wrap and are kept as natural numbers. -/
structure PatchCounts where
  patches_count : Nat
  security_patches_count : Nat
  lockedPatches : Nat
  deriving DecidableEq, Repr

/-- The body of the loop of `patch_check` for one patch. -/
def patch_check.body (pool : ResPool) (updatestackOnly : Bool) (c : PatchCounts)
    (pi : PoolItem) : PatchCounts :=
  if pool.isBroken pi then
    if pool.isUnwanted pi then { c with lockedPatches := c.lockedPatches + 1 }
    else
      let patch := pool.asPatch pi
      if !updatestackOnly || patch.restartSuggested then
        let c1 := { c with patches_count := c.patches_count + 1 }
        if patch.isSecurity then
          { c1 with security_patches_count := c1.security_patches_count + 1 }
        else c1
      else c
  else c

/-- The loop of `patch_check` over the patches of the pool. -/
def patch_check.loop (pool : ResPool) (updatestackOnly : Bool) (patches : List PoolItem)
    (counts : PatchCounts) : PatchCounts :=
  patches.foldl (patch_check.body pool updatestackOnly) counts

/-- Function `patch_check`: the counters after the loop and the messages
written. -/
def patch_check (z : Zypper) (msg : Messages) (pool : ResPool) : PatchCounts × List OutEvent :=
  let updatestackOnly := z.cOptsCount "updatestack-only" != 0
  let c := patch_check.loop pool updatestackOnly (pool.byKind ResKind.patch) ⟨0, 0, 0⟩
  let locked :=
    if c.lockedPatches ≠ 0 then
      [OutEvent.info
        (z.highlight (msg.format
          (msg.ngettext "%d patch locked" "%d patches locked" c.lockedPatches) c.lockedPatches))
        []]
    else []
  let s :=
    msg.format (msg.ngettext "%d patch needed" "%d patches needed" c.patches_count)
        c.patches_count
      ++ " ("
      ++ msg.format
          (msg.ngettext "%d security patch" "%d security patches" c.security_patches_count)
          c.security_patches_count
      ++ ")"
  (c, locked ++ [OutEvent.info s []])

/-! ## Issue filters from the command line -/

/-- An issue (Type,Id) pair (`struct Issue`); the empty string means "any". -/
structure Issue where
  type : String
  id : String
  deriving DecidableEq, Repr

/-- Member `anyType()`. -/
def Issue.anyType (i : Issue) : Bool := i.type.isEmpty

/-- Member `specificType()`. -/
def Issue.specificType (i : Issue) : Bool := !i.anyType

/-- Member `anyId()`. -/
def Issue.anyId (i : Issue) : Bool := i.id.isEmpty

/-- Member `specificId()`. -/
def Issue.specificId (i : Issue) : Bool := !i.anyId

/-- The order of `std::pair<std::string, std::string>`: lexicographic on
(type, id), each string compared character by character. -/
def Issue.lt (a b : Issue) : Bool :=
  decide (a.type.data < b.type.data) || (decide (a.type = b.type) && decide (a.id.data < b.id.data))

/-- Modelled from the spec: libzypp's `str::split( line, out, sepchars )`, here
with a single separator character: "split on comma into individual ids".  The
words are the maximal runs of characters other than the separator, so no word
is empty; the C++ function appends them to `out` and returns their number. -/
def str.split (line : String) (sep : Char) : List String :=
  ((line.data.splitOn sep).filter (fun w => !w.isEmpty)).map String.mk

/-- The loop of `checkCLI` over the option values: the pair
(`anyId`, `issueIds`) after the loop. -/
def CliScanIssues.scanValues (vals : List String) : Bool × List String :=
  vals.foldl
    (fun (acc : Bool × List String) (val : String) =>
      let words := str.split val ','
      (if words.length == 0 then true else acc.1, acc.2 ++ words))
    (false, [])

/-- Member `CliScanIssues::checkCLI`: the set after the call and the
warnings it wrote. -/
def CliScanIssues.checkCLI (z : Zypper) (cliOption_r issueType_r : String)
    (self : List Issue) : List Issue × List OutEvent :=
  let scan := CliScanIssues.scanValues (z.cOptValues cliOption_r)
  let anyId := scan.1
  let issueIds := scan.2
  if issueIds.isEmpty then
    if anyId then (stdSetInsert Issue.lt ⟨issueType_r, ""⟩ self, [])
    else (self, [])
  else
    (issueIds.foldl (fun s val => stdSetInsert Issue.lt ⟨issueType_r, val⟩ s) self,
     if anyId then
       [OutEvent.warning
          (z.gettext "Ignoring %s without argument because similar option with an argument has been specified.")
          ["--" ++ cliOption_r]]
     else [])

/-- The four (cliOption, issueType) pairs of the `CliScanIssues` constructor. -/
def CliScanIssues.flags : List (String × String) :=
  [("issues", ""), ("bugzilla", "bugzilla"), ("bz", "bugzilla"), ("cve", "cve")]

/-- Constructor `CliScanIssues::CliScanIssues`: the issue set, in iteration
order, and the warnings written while building it. -/
def CliScanIssues (z : Zypper) : List Issue × List OutEvent :=
  let r1 := CliScanIssues.checkCLI z "issues" "" []
  let r2 := CliScanIssues.checkCLI z "bugzilla" "bugzilla" r1.1
  let r3 := CliScanIssues.checkCLI z "bz" "bugzilla" r2.1
  let r4 := CliScanIssues.checkCLI z "cve" "cve" r3.1
  (r4.1, r1.2 ++ r2.2 ++ r3.2 ++ r4.2)

/-- The ids parsed from the values of one flag: all words of all values. -/
def parsedIds (vals : List String) : List String :=
  vals.flatMap (fun v => str.split v ',')

/-- Whether some value of the flag split into zero ids (the flag was given bare). -/
def suppliedBare (vals : List String) : Bool :=
  vals.any (fun v => (str.split v ',').isEmpty)

/-- The contribution of one flag as the specification words it: the ids when
at least one was parsed, else the wildcard entry when the flag was given bare,
else nothing. -/
def specContribution (issueType : String) (vals : List String) : List Issue :=
  if (parsedIds vals).isEmpty then
    if suppliedBare vals then [⟨issueType, ""⟩] else []
  else (parsedIds vals).map (fun i => ⟨issueType, i⟩)

/-! ## The query engine interface -/

/-- The solvable attributes that the queries of `update.cc` name. -/
inductive SolvAttr where
  | updateReferenceType
  | updateReferenceId
  | summary
  | description
  deriving DecidableEq, Repr

/-- A `zypp::PoolQuery` as `update.cc` sets it up. -/
structure PoolQuery where
  /-- `true` after `setMatchExact()`, `false` after `setMatchSubstring()` -/
  matchExact : Bool
  caseSensitive : Bool
  kinds : List ResKind
  attributes : List (SolvAttr × String)
  deriving DecidableEq, Repr

/-- A freshly constructed `PoolQuery`; both callers set the match mode and the
case sensitivity before use. -/
def PoolQuery.init : PoolQuery := ⟨false, false, [], []⟩

/-- Member `setMatchSubstring()`. -/
def PoolQuery.setMatchSubstring (q : PoolQuery) : PoolQuery := { q with matchExact := false }

/-- Member `setMatchExact()`. -/
def PoolQuery.setMatchExact (q : PoolQuery) : PoolQuery := { q with matchExact := true }

/-- Member `setCaseSensitive( value )`. -/
def PoolQuery.setCaseSensitive (q : PoolQuery) (value : Bool) : PoolQuery :=
  { q with caseSensitive := value }

/-- Member `addKind( kind )`. -/
def PoolQuery.addKind (q : PoolQuery) (kind : ResKind) : PoolQuery :=
  { q with kinds := q.kinds ++ [kind] }

/-- Member `addAttribute( attr, value )`. -/
def PoolQuery.addAttribute (q : PoolQuery) (attr : SolvAttr) (value : String) : PoolQuery :=
  { q with attributes := q.attributes ++ [(attr, value)] }

/-- One match `d` of a query hit, read as `update.cc` reads it:
`d->subFind( updateReferenceType )` and `d->subFind( updateReferenceId )`. -/
structure RefMatch where
  refType : String
  refId : String
  deriving DecidableEq, Repr

/-- One position `it` of a running query: the item and its matches
(`it.matchesBegin() .. it.matchesEnd()`). -/
structure QueryHit where
  item : PoolItem
  matchList : List RefMatch
  deriving DecidableEq, Repr

/-- The query engine: the hits `q.begin() .. q.end()` of a query. -/
abbrev QueryEngine := PoolQuery → List QueryHit

/-! ## Listing patches by issue -/

/-- A table row: its column texts. -/
abbrev TableRow := List String

/-- Function `patchHighlight`; the two highlighted texts are
`asString(Patch::CAT_SECURITY)` and `asString(Patch::SEV_CRITICAL)`. -/
def patchHighlight (z : Zypper) (val_r : String) : String :=
  if ["security", "critical"].any (fun high => high == val_r) then z.highlight val_r else val_r

/-- Function `interactiveFlags`: `kRestart` is the artificial flag `0x1000`. -/
def interactiveFlags (z : Zypper) (patch_r : Patch) : String :=
  let flags := if patch_r.restartSuggested then patch_r.interactiveFlags ||| 0x1000
               else patch_r.interactiveFlags
  if flags ≠ 0 then z.stringifyFlags flags else "---"

/-- Modelled from the spec: `Table::sort( by_column )` of `Table.h` (not in the
sources at hand): "sorted by" a column.  Columns count from 0, as the call
`tbl.sort(1); // Name` on the header Repository, Name, ... shows; rows are
ordered by the text of that column, rows with equal texts keep their order. -/
def Table.sort (by_column : Nat) (rows : List TableRow) : List TableRow :=
  rows.insertionSort (fun a b => (a.getD by_column "").data ≤ (b.getD by_column "").data)

/-- The basic query of `list_patches_by_issue`. -/
def list_patches_by_issue.basicQ : PoolQuery :=
  ((PoolQuery.init.setMatchSubstring).setCaseSensitive false).addKind ResKind.patch

/-- The query that `list_patches_by_issue` builds for one issue. -/
def list_patches_by_issue.issueQuery (issue : Issue) : PoolQuery :=
  let q := list_patches_by_issue.basicQ
  if issue.specificType && issue.anyId then
    q.addAttribute SolvAttr.updateReferenceType issue.type
  else
    let q := q.addAttribute SolvAttr.updateReferenceId issue.id
    if issue.anyType && issue.specificId then
      q.addAttribute SolvAttr.updateReferenceType issue.id
    else q

/-- Whether `list_patches_by_issue` remembers the issue for pass 2. -/
def list_patches_by_issue.remembered (issue : Issue) : Bool :=
  if issue.specificType && issue.anyId then false
  else issue.anyType && issue.specificId

/-- The rows that the innermost loop of pass 1 appends for one query hit. -/
def list_patches_by_issue.hitRows (z : Zypper) (pool : ResPool) (only_needed : Bool)
    (issue : Issue) (hit : QueryHit) : List TableRow :=
  let pi := hit.item
  let patch := pool.asPatch pi
  if only_needed && !patchIsApplicable pool pi then []
  else if !z.cliMatchPatch patch then []
  else
    (hit.matchList.filter (fun d => !(issue.specificType && d.refType != issue.type))).map
      (fun d =>
        [d.refType, d.refId, patch.name, patchHighlight z patch.category,
         patchHighlight z patch.severity, interactiveFlags z patch,
         i18nPatchStatusAsString z pool pi])

/-- The rows that pass 1 appends to table `t` while it handles one issue. -/
def list_patches_by_issue.issueRows (z : Zypper) (pool : ResPool) (engine : QueryEngine)
    (issue : Issue) : List TableRow :=
  let only_needed := z.cOptsCount "all" == 0
  (engine (list_patches_by_issue.issueQuery issue)).flatMap
    (list_patches_by_issue.hitRows z pool only_needed issue)

/-- The query of pass 2 for one remembered issue. -/
def list_patches_by_issue.pass2Query (issue : Issue) : PoolQuery :=
  (list_patches_by_issue.basicQ.addAttribute SolvAttr.summary issue.id).addAttribute
    SolvAttr.description issue.id

/-- The rows that pass 2 appends to table `t1` for one remembered issue. -/
def list_patches_by_issue.pass2Rows (z : Zypper) (pool : ResPool) (engine : QueryEngine)
    (issue : Issue) : List TableRow :=
  let only_needed := z.cOptsCount "all" == 0
  (engine (list_patches_by_issue.pass2Query issue)).flatMap
    (fun hit =>
      let pi := hit.item
      let patch := pool.asPatch pi
      if only_needed && !patchIsApplicable pool pi then []
      else if !z.cliMatchPatch patch then []
      else
        [[patch.name, patchHighlight z patch.category, patchHighlight z patch.severity,
          interactiveFlags z patch, patch.summary]])

/-- What `list_patches_by_issue` computes: both tables as printed (after the
sort), the issues remembered for pass 2, and everything written. -/
structure IssueListing where
  t : List TableRow
  t1 : List TableRow
  pass2 : List Issue
  out : List OutEvent
  deriving DecidableEq, Repr

/-- Function `list_patches_by_issue`.  The table headers and the abbreviation
of columns (`allowAbbrev`) belong to the rendering and are left out. -/
def list_patches_by_issue (z : Zypper) (pool : ResPool) (engine : QueryEngine) : IssueListing :=
  let scanned := CliScanIssues z
  let issues := scanned.1
  let rows := issues.flatMap (list_patches_by_issue.issueRows z pool engine)
  let pass2 := issues.filter list_patches_by_issue.remembered
  let rows1 := pass2.flatMap (list_patches_by_issue.pass2Rows z pool engine)
  let t := Table.sort 3 rows
  let t1 := Table.sort 0 rows1
  let printed :=
    if t.isEmpty && t1.isEmpty then
      [OutEvent.info (z.gettext "No matching issues found.") []]
    else
      (if !t.isEmpty then
        (if !pass2.isEmpty then
          [OutEvent.endl,
           OutEvent.info (z.gettext "The following matches in issue numbers have been found:") []]
         else [])
        ++ [OutEvent.endl, OutEvent.table t]
       else [])
      ++
      (if !t1.isEmpty then
        (if !t.isEmpty then [OutEvent.endl] else [])
        ++ [OutEvent.info
              (z.gettext "Matches in patch descriptions of the following patches have been found:") [],
            OutEvent.endl, OutEvent.table t1]
       else [])
  { t := t, t1 := t1, pass2 := pass2, out := scanned.2 ++ printed }

/-! ## Update candidates -/

/-- Order of `std::set<PoolItem>` (the type `Candidates`): by solvable id. -/
def PoolItem.lt (a b : PoolItem) : Bool := decide (a < b)

/-- The resolver-plan branch of `find_updates( kind, candidates )`: the loop
over the pool after `God->resolver()->doUpdate()`. -/
def find_updates.planLoop (pool : ResPool) (candidates : List PoolItem) : List PoolItem :=
  pool.items.foldl
    (fun cands it =>
      if pool.kind it ≠ ResKind.package then cands
      else if pool.isToBeInstalled it then
        let s := pool.selectableGet (pool.kind it) (pool.name it)
        if s.hasInstalledObj then stdSetInsert PoolItem.lt it cands else cands
      else cands)
    candidates

/-- The scan branch of `find_updates( kind, candidates )`: the loop over the
selectables of the kind. -/
def find_updates.scanLoop (pool : ResPool) (kind : ResKind) (candidates : List PoolItem) :
    List PoolItem :=
  (pool.proxyByKind kind).foldl
    (fun cands sel =>
      match sel.installedObj with
      | none => cands
      | some installed =>
        match sel.highestAvailableVersionObj with
        | none => cands
        | some candidate =>
          if pool.compareByNVRA installed candidate ≥ 0 then cands
          else stdSetInsert PoolItem.lt candidate cands)
    candidates

/-- Function `find_updates( const ResKind &, Candidates & )`.  `doUpdate` is the
resolver's `doUpdate()`, which rewrites the pool; the result is the candidate
set and the pool afterwards. -/
def find_updates (z : Zypper) (doUpdate : ResPool → ResPool) (pool : ResPool) (kind : ResKind)
    (candidates : List PoolItem) : List PoolItem × ResPool :=
  if kind = ResKind.package ∧ z.cOptsCount "all" = 0 then
    let pool1 := doUpdate pool
    (find_updates.planLoop pool1 candidates, pool1)
  else
    (find_updates.scanLoop pool kind candidates, pool)

/-- Function `find_updates( const ResKindSet &, Candidates & )`; `kinds` is the
kind set in iteration order. -/
def find_updates_kinds (z : Zypper) (doUpdate : ResPool → ResPool) (pool : ResPool)
    (kinds : List ResKind) (candidates : List PoolItem) : List PoolItem × ResPool :=
  kinds.foldl (fun acc kit => find_updates z doUpdate acc.2 kit acc.1) (candidates, pool)

/-! ## Marking patches by issue -/

/-- The `SolverRequester` (of `SolverRequester.h`) over a resolver state `σ`. -/
structure SolverRequester (σ : Type) where
  /-- construction `SolverRequester sr( srOpts )` of a fresh requester -/
  create : σ → σ
  /-- request `sr.installPatch( pi )`: whether the patch was marked, and the state after -/
  installPatch : σ → PoolItem → Bool × σ
  /-- output of `sr.printFeedback( zypper.out() )` -/
  printFeedback : σ → List OutEvent

/-- One call of `sr.installPatch` as it happened. -/
structure InstallRequest where
  issue : Issue
  item : PoolItem
  ref : RefMatch
  result : Bool
  deriving DecidableEq, Repr

/-- The state that `mark_updates_by_issue` works on: the resolver, the exit
code of the `Zypper` singleton, the output, and the record of `installPatch`
calls made so far. -/
structure MarkState (σ : Type) where
  solver : σ
  exitCode : Int
  out : List OutEvent
  requests : List InstallRequest

/-- The basic query of `mark_updates_by_issue`. -/
def mark_updates_by_issue.basicQ : PoolQuery :=
  ((PoolQuery.init.setMatchExact).setCaseSensitive false).addKind ResKind.patch

/-- The query that `mark_updates_by_issue` builds for one issue. -/
def mark_updates_by_issue.issueQuery (issue : Issue) : PoolQuery :=
  if issue.specificType && issue.anyId then
    mark_updates_by_issue.basicQ.addAttribute SolvAttr.updateReferenceType issue.type
  else
    mark_updates_by_issue.basicQ.addAttribute SolvAttr.updateReferenceId issue.id

/-- The loop over the matches `d` of one hit: the local `found` and the state. -/
def mark_updates_by_issue.matchLoop {σ : Type} (sr : SolverRequester σ) (issue : Issue)
    (pi : PoolItem) (ds : List RefMatch) (acc : Bool × MarkState σ) : Bool × MarkState σ :=
  ds.foldl
    (fun (acc : Bool × MarkState σ) d =>
      if issue.specificType && d.refType != issue.type then acc
      else
        let r := sr.installPatch acc.2.solver pi
        (if r.1 then true else acc.1,
         { acc.2 with solver := r.2, requests := acc.2.requests ++ [⟨issue, pi, d, r.1⟩] }))
    acc

/-- The loop over the hits of the query of one issue. -/
def mark_updates_by_issue.hitLoop {σ : Type} (pool : ResPool) (sr : SolverRequester σ)
    (issue : Issue) (hits : List QueryHit) (acc : Bool × MarkState σ) : Bool × MarkState σ :=
  hits.foldl
    (fun (acc : Bool × MarkState σ) hit =>
      if !pool.isBroken hit.item then acc
      else mark_updates_by_issue.matchLoop sr issue hit.item hit.matchList acc)
    acc

/-- The message of `mark_updates_by_issue` for an issue whose fix was not found. -/
def mark_updates_by_issue.notFoundInfo (z : Zypper) (issue : Issue) : OutEvent :=
  let itype := issue.type
  if itype = "bugzilla" then
    OutEvent.info (z.gettext "Fix for bugzilla issue number %s was not found or is not needed.")
      [issue.id]
  else if itype = "cve" then
    OutEvent.info (z.gettext "Fix for CVE issue number %s was not found or is not needed.")
      [issue.id]
  else
    OutEvent.info (z.gettext "Fix for %s issue number %s was not found or is not needed.")
      [itype, issue.id]

/-- The body of the loop of `mark_updates_by_issue` for one issue: the value of
`found` at the end of the body and the state after it. -/
def mark_updates_by_issue.step {σ : Type} (z : Zypper) (pool : ResPool) (engine : QueryEngine)
    (sr : SolverRequester σ) (issue : Issue) (st : MarkState σ) : Bool × MarkState σ :=
  let q := mark_updates_by_issue.issueQuery issue
  let st0 := { st with solver := sr.create st.solver }
  let r := mark_updates_by_issue.hitLoop pool sr issue (engine q) (false, st0)
  let st1 := { r.2 with out := r.2.out ++ sr.printFeedback r.2.solver }
  if !r.1 then
    (false, { st1 with out := st1.out ++ [mark_updates_by_issue.notFoundInfo z issue],
                       exitCode := z.ZYPPER_EXIT_INF_CAP_NOT_FOUND })
  else (true, st1)

/-- The loop of `mark_updates_by_issue` over a sequence of issues. -/
def mark_updates_by_issue.run {σ : Type} (z : Zypper) (pool : ResPool) (engine : QueryEngine)
    (sr : SolverRequester σ) (issues : List Issue) (st : MarkState σ) : MarkState σ :=
  issues.foldl (fun st issue => (mark_updates_by_issue.step z pool engine sr issue st).2) st

/-- Function `mark_updates_by_issue`. -/
def mark_updates_by_issue {σ : Type} (z : Zypper) (pool : ResPool) (engine : QueryEngine)
    (sr : SolverRequester σ) (st : MarkState σ) : MarkState σ :=
  let scanned := CliScanIssues z
  mark_updates_by_issue.run z pool engine sr scanned.1 { st with out := st.out ++ scanned.2 }

/-- The (item, match) pairs for which `mark_updates_by_issue` reaches the call
`sr.installPatch( pi )` while it handles `issue`: the item is broken and the
match passes the type check. -/
def mark_updates_by_issue.acceptedMatches (pool : ResPool) (issue : Issue)
    (hits : List QueryHit) : List (PoolItem × RefMatch) :=
  hits.flatMap (fun hit =>
    if pool.isBroken hit.item then
      (hit.matchList.filter (fun d => !(issue.specificType && d.refType != issue.type))).map
        (fun d => (hit.item, d))
    else [])

/-- The `installPatch` calls that one loop body added to the record. -/
def mark_updates_by_issue.newRequests {σ : Type} (before after : MarkState σ) :
    List InstallRequest :=
  after.requests.drop before.requests.length

/-- The calls `sr.installPatch( pi )` for a sequence of (item, match) pairs,
made in order from a resolver state, each call on the state the previous one
left: the record entries with the results the calls returned, and the resolver
state after the last call.  This is the reference against which the loops of
`mark_updates_by_issue` are compared. -/
def mark_updates_by_issue.issueRequests {σ : Type} (sr : SolverRequester σ) (issue : Issue) :
    List (PoolItem × RefMatch) → σ → List InstallRequest × σ
  | [], s => ([], s)
  | (pi, d) :: rest, s =>
    let r := sr.installPatch s pi
    let rr := mark_updates_by_issue.issueRequests sr issue rest r.2
    (⟨issue, pi, d, r.1⟩ :: rr.1, rr.2)

/-- The outcome of each issue of a marking run, in processing order: the issue
and the value of `found` at the end of its loop body (`true` is Found, `false`
is NotFound). -/
def mark_updates_by_issue.outcomes {σ : Type} (z : Zypper) (pool : ResPool)
    (engine : QueryEngine) (sr : SolverRequester σ) :
    List Issue → MarkState σ → List (Issue × Bool)
  | [], _ => []
  | issue :: issues, st =>
    (issue, (mark_updates_by_issue.step z pool engine sr issue st).1)
      :: mark_updates_by_issue.outcomes z pool engine sr issues
          (mark_updates_by_issue.step z pool engine sr issue st).2

/-! ## A reference query engine and concrete scenarios -/

/-- Whether `needle` occurs in `hay` as a contiguous run. -/
def containsChars (needle hay : List Char) : Bool :=
  hay.tails.any (fun t => needle.isPrefixOf t)

/-- Whether an attribute text satisfies a query value under the query's match
mode and case sensitivity; an empty value matches every text. -/
def queryValueMatches (q : PoolQuery) (value text : String) : Bool :=
  let norm := fun (s : String) => if q.caseSensitive then s.data else s.data.map Char.toLower
  if value.isEmpty then true
  else if q.matchExact then norm text == norm value
  else containsChars (norm value) (norm text)

/-- Modelled from the spec: the external query engine, `queryPatches(attribute,
value, substring|exact, caseInsensitive) -> sequence of (patch,
matchedReferenceEntries)` and `queryFreeText`.  A query ORs its attributes: an
item of a queried kind is a hit when one of its reference entries matches a
reference attribute of the query or its summary/description matches a text
attribute; the matches of the hit are the matching reference entries. -/
def queryPatches (pool : ResPool) : QueryEngine := fun q =>
  (pool.items.filter (fun pi => q.kinds.contains (pool.kind pi))).filterMap (fun pi =>
    let patch := pool.asPatch pi
    let refs := patch.references.filter (fun r =>
      q.attributes.any (fun av =>
        match av.1 with
        | .updateReferenceType => queryValueMatches q av.2 r.1
        | .updateReferenceId => queryValueMatches q av.2 r.2
        | _ => false))
    let text := q.attributes.any (fun av =>
      match av.1 with
      | .summary => queryValueMatches q av.2 patch.summary
      | .description => queryValueMatches q av.2 patch.description
      | _ => false)
    if refs.isEmpty && !text then none
    else some ⟨pi, refs.map (fun r => ⟨r.1, r.2⟩)⟩)

/-- A query engine that narrows candidates only: every hit of `queryPatches`
with all reference entries of the patch as its matches. -/
def queryPatchesCoarse (pool : ResPool) : QueryEngine := fun q =>
  (queryPatches pool q).map (fun hit =>
    ⟨hit.item, (pool.asPatch hit.item).references.map (fun r => ⟨r.1, r.2⟩)⟩)

/-- A `Zypper` whose collaborators are trivial and whose command options are
given by `vals`. -/
def zypperWith (vals : String → List String) (count : String → Nat) : Zypper where
  cOptValues := vals
  cOptsCount := count
  gettext := id
  highlight := id
  cliMatchPatch := fun _ => true
  stringifyFlags := fun _ => "flags"
  ZYPPER_EXIT_INF_CAP_NOT_FOUND := 104

/-- A command line without any option. -/
def zPlain : Zypper := zypperWith (fun _ => []) (fun _ => 0)

/-- Command line with `--all`. -/
def zAll : Zypper := zypperWith (fun _ => []) (fun o => if o = "all" then 1 else 0)

/-- Command line `--bugzilla=123 --bz`. -/
def zBugzillaIdBzBare : Zypper :=
  zypperWith (fun o => if o = "bugzilla" then ["123"] else if o = "bz" then [""] else []) (fun _ => 0)

/-- Command line `--bugzilla=123 --bugzilla`. -/
def zBugzillaIdAndBare : Zypper :=
  zypperWith (fun o => if o = "bugzilla" then ["123", ""] else []) (fun _ => 0)

/-- Command line `--cve` (bare). -/
def zCveBare : Zypper :=
  zypperWith (fun o => if o = "cve" then [""] else []) (fun _ => 0)

/-- Command line `--bugzilla` (bare). -/
def zBugzillaBare : Zypper :=
  zypperWith (fun o => if o = "bugzilla" then [""] else []) (fun _ => 0)

/-- Command line `--bugzilla=12345`. -/
def zBugzilla12345 : Zypper :=
  zypperWith (fun o => if o = "bugzilla" then ["12345"] else []) (fun _ => 0)

/-- Command line `--bugzilla=999 --cve=CVE-2024-0001`. -/
def zBugzilla999Cve : Zypper :=
  zypperWith
    (fun o => if o = "bugzilla" then ["999"] else if o = "cve" then ["CVE-2024-0001"] else [])
    (fun _ => 0)

/-- A patch with the given name, category and references and no flags. -/
def patchWith (name category description : String) (references : List (String × String)) :
    Patch where
  name := name
  category := category
  severity := "moderate"
  summary := "summary of " ++ name
  description := description
  interactiveFlags := 0
  restartSuggested := false
  isSecurity := category == "security"
  references := references

/-- A pool of patches only: item `i` is the `i`-th entry, a triple (patch,
validation state, unwanted). -/
def patchPool (entries : List (Patch × ValidateValue × Bool)) : ResPool where
  items := List.range entries.length
  kind := fun _ => ResKind.patch
  name := fun pi => ((entries.map (fun e => e.1.name)).getD pi "")
  validate := fun pi => (entries.map (fun e => e.2.1)).getD pi ValidateValue.UNDETERMINED
  isUnwanted := fun pi => (entries.map (fun e => e.2.2)).getD pi false
  isToBeInstalled := fun _ => false
  asPatch := fun pi => (entries.map (fun e => e.1)).getD pi (patchWith "" "" "" [])
  proxyByKind := fun _ => []
  selectableGet := fun _ _ => ⟨none, none⟩
  compareByNVRA := fun _ _ => 0

/-- An applied patch that is locked. -/
def poolAppliedLocked : ResPool :=
  patchPool [(patchWith "patch-b" "recommended" "" [], ValidateValue.SATISFIED, true)]

/-- The same applied patch, not locked. -/
def poolAppliedUnlocked : ResPool :=
  patchPool [(patchWith "patch-b" "recommended" "" [], ValidateValue.SATISFIED, false)]

/-- Scenario A: one needed patch referencing cve/CVE-2024-0001 and bugzilla/99999. -/
def poolScenarioA : ResPool :=
  patchPool [(patchWith "patch-a" "security" "fixes things"
                [("cve", "CVE-2024-0001"), ("bugzilla", "99999")],
              ValidateValue.BROKEN, false)]

/-- Two needed patches: patch-x (recommended) fixes bugzilla/1, patch-y
(optional) fixes bugzilla/2. -/
def poolTwoBugs : ResPool :=
  patchPool
    [(patchWith "patch-x" "recommended" "" [("bugzilla", "1")], ValidateValue.BROKEN, false),
     (patchWith "patch-y" "optional" "" [("bugzilla", "2")], ValidateValue.BROKEN, false)]

/-- Scenario C: the only patch for bugzilla/12345 is broken and locked. -/
def poolScenarioC : ResPool :=
  patchPool [(patchWith "patch-c" "recommended" "" [("bugzilla", "12345")],
              ValidateValue.BROKEN, true)]

/-- The same patch, applied (not broken). -/
def poolScenarioCApplied : ResPool :=
  patchPool [(patchWith "patch-c" "recommended" "" [("bugzilla", "12345")],
              ValidateValue.SATISFIED, false)]

/-- A requester over the list of marked items whose every request succeeds. -/
def srAlwaysMarks : SolverRequester (List PoolItem) where
  create := fun s => s
  installPatch := fun s pi => (true, s ++ [pi])
  printFeedback := fun _ => []

/-- The start state of a marking run: nothing marked, exit code 0, no output. -/
def markStart : MarkState (List PoolItem) := ⟨[], 0, [], []⟩

/-- A pool of packages for the update scenarios.  Items 1 and 2 are the
installed and the newer available version of package y, item 3 is the only
(available) version of package x, items 4 and 5 are the installed version of
package w and an available version of it that is not newer.  `toInstall` lists
the items whose status is "to be installed". -/
def packagePool (toInstall : List PoolItem) : ResPool where
  items := [1, 2, 3, 4, 5]
  kind := fun _ => ResKind.package
  name := fun pi => if pi = 1 ∨ pi = 2 then "y" else if pi = 3 then "x" else "w"
  validate := fun _ => ValidateValue.UNDETERMINED
  isUnwanted := fun _ => false
  isToBeInstalled := fun pi => toInstall.contains pi
  asPatch := fun _ => patchWith "" "" "" []
  proxyByKind := fun kind =>
    if kind = ResKind.package then [⟨some 1, some 2⟩, ⟨none, some 3⟩, ⟨some 4, some 5⟩] else []
  selectableGet := fun _ name =>
    if name = "y" then ⟨some 1, some 2⟩
    else if name = "x" then ⟨none, some 3⟩
    else ⟨some 4, some 5⟩
  compareByNVRA := fun a b =>
    let rank : PoolItem → Int := fun pi => if pi = 2 then 2 else 1
    rank a - rank b

/-- A resolver whose plan selects items 2 (update of y) and 3 (new install of x). -/
def doUpdateSelectsXY (pool : ResPool) : ResPool :=
  { pool with isToBeInstalled := fun pi => pi = 2 ∨ pi = 3 }

/-- Whether `text` contains `value` as a substring, letter case ignored. -/
def containsCI (value text : String) : Bool :=
  containsChars (value.data.map Char.toLower) (text.data.map Char.toLower)

/-- Scenario B: one needed patch whose only reference is cve/CVE-2024-0001 and
whose description mentions 99999. -/
def poolScenarioB : ResPool :=
  patchPool [(patchWith "patch-d" "recommended" "Fixes the crash of bug 99999."
                [("cve", "CVE-2024-0001")],
              ValidateValue.BROKEN, false)]

/-- Command line `--issues=99999`. -/
def zIssues99999 : Zypper :=
  zypperWith (fun o => if o = "issues" then ["99999"] else []) (fun _ => 0)

/-- A resolver whose plan selects item 5, the available version of package w
that does not compare higher than the installed item 4. -/
def doUpdateSelectsW (pool : ResPool) : ResPool :=
  { pool with isToBeInstalled := fun pi => pi = 5 }

/-- The contract of a query engine on the matches of a hit: every match is a
reference entry that satisfies one of the reference attributes of the query. -/
def matchesSatisfyQuery (engine : QueryEngine) : Prop :=
  ∀ q : PoolQuery, ∀ hit ∈ engine q, ∀ d ∈ hit.matchList,
    ∃ av ∈ q.attributes,
      (av.1 = SolvAttr.updateReferenceType ∧ queryValueMatches q av.2 d.refType = true)
      ∨ (av.1 = SolvAttr.updateReferenceId ∧ queryValueMatches q av.2 d.refId = true)

/-- Command line `--issues=bugzilla`. -/
def zIssuesBugzilla : Zypper :=
  zypperWith (fun o => if o = "issues" then ["bugzilla"] else []) (fun _ => 0)

/-- Command line `--bugzilla=9999`. -/
def zBugzilla9999 : Zypper :=
  zypperWith (fun o => if o = "bugzilla" then ["9999"] else []) (fun _ => 0)

/-- Command line `--bugzilla=12345 --all`. -/
def zBugzilla12345All : Zypper :=
  zypperWith (fun o => if o = "bugzilla" then ["12345"] else [])
    (fun o => if o = "all" then 1 else 0)

/-- Message helpers that keep the singular text and put the number in front. -/
def plainMessages : Messages where
  ngettext := fun singular _ _ => singular
  format := fun fmt n => toString n ++ ":" ++ fmt

/-- A patch with the given category and restart flag and nothing else. -/
def patchOf (name category : String) (restartSuggested : Bool) : Patch :=
  { patchWith name category "" [] with restartSuggested := restartSuggested }

/-- Five patches: 0 needed security (update stack), 1 needed security, 2 needed
recommended, 3 broken and locked security, 4 applied security. -/
def poolFivePatches : ResPool :=
  patchPool
    [(patchOf "p0" "security" true, ValidateValue.BROKEN, false),
     (patchOf "p1" "security" false, ValidateValue.BROKEN, false),
     (patchOf "p2" "recommended" false, ValidateValue.BROKEN, false),
     (patchOf "p3" "security" false, ValidateValue.BROKEN, true),
     (patchOf "p4" "security" false, ValidateValue.SATISFIED, false)]

/-- Command line with `--updatestack-only`. -/
def zUpdatestackOnly : Zypper :=
  zypperWith (fun _ => []) (fun o => if o = "updatestack-only" then 1 else 0)

/-! ## Theorems -/

/-! ### Ordered sets -/

theorem Issue.lt_irrefl (a : Issue) : Issue.lt a a = false := by
  simp [Issue.lt]

theorem Issue.lt_trans {a b c : Issue} (hab : Issue.lt a b = true) (hbc : Issue.lt b c = true) :
    Issue.lt a c = true := by
  simp only [Issue.lt, Bool.or_eq_true, Bool.and_eq_true, decide_eq_true_eq] at *
  rcases hab with h1 | ⟨h1, h2⟩
  · rcases hbc with h3 | ⟨h3, _⟩
    · exact Or.inl (h1.trans h3)
    · exact Or.inl (h3 ▸ h1)
  · rcases hbc with h3 | ⟨h3, h4⟩
    · exact Or.inl (h1 ▸ h3)
    · exact Or.inr ⟨Eq.trans h1 h3, h2.trans h4⟩

theorem Issue.eq_of_not_lt {a b : Issue} (hab : Issue.lt a b = false) (hba : Issue.lt b a = false) :
    a = b := by
  simp only [Issue.lt, Bool.or_eq_false_iff, Bool.and_eq_false_iff, decide_eq_false_iff_not] at *
  obtain ⟨h1, h2⟩ := hab
  obtain ⟨h3, h4⟩ := hba
  have ht : a.type = b.type := String.ext (le_antisymm (not_lt.mp h3) (not_lt.mp h1))
  have h2' : ¬ a.id.data < b.id.data := by
    rcases h2 with h | h
    · exact absurd ht h
    · exact h
  have h4' : ¬ b.id.data < a.id.data := by
    rcases h4 with h | h
    · exact absurd ht.symm h
    · exact h
  have hi : a.id = b.id := String.ext (le_antisymm (not_lt.mp h4') (not_lt.mp h2'))
  cases a; cases b; simp_all

theorem PoolItem.eq_of_lt_false {a b : PoolItem} (hab : PoolItem.lt a b = false)
    (hba : PoolItem.lt b a = false) : a = b := by
  simp only [PoolItem.lt, decide_eq_false_iff_not] at *
  exact Nat.le_antisymm (Nat.le_of_not_lt hba) (Nat.le_of_not_lt hab)

theorem mem_stdSetInsert_imp {α : Type} {lt : α → α → Bool} {a x : α} {s : List α}
    (h : x ∈ stdSetInsert lt a s) : x = a ∨ x ∈ s := by
  induction s with
  | nil => simpa [stdSetInsert] using h
  | cons b s ih =>
    unfold stdSetInsert at h
    split at h
    · simpa using h
    · split at h
      · rcases List.mem_cons.mp h with h | h
        · exact Or.inr (h ▸ List.mem_cons_self _ _)
        · rcases ih h with h | h
          · exact Or.inl h
          · exact Or.inr (List.mem_cons_of_mem _ h)
      · exact Or.inr h

theorem mem_stdSetInsert_of_mem {α : Type} {lt : α → α → Bool} {a x : α} {s : List α}
    (h : x ∈ s) : x ∈ stdSetInsert lt a s := by
  induction s with
  | nil => cases h
  | cons b s ih =>
    unfold stdSetInsert
    split
    · exact List.mem_cons_of_mem _ h
    · split
      · rcases List.mem_cons.mp h with h | h
        · exact h ▸ List.mem_cons_self _ _
        · exact List.mem_cons_of_mem _ (ih h)
      · exact h

theorem self_mem_stdSetInsert {α : Type} {lt : α → α → Bool}
    (tri : ∀ a b, lt a b = false → lt b a = false → a = b) (a : α) (s : List α) :
    a ∈ stdSetInsert lt a s := by
  induction s with
  | nil => simp [stdSetInsert]
  | cons b s ih =>
    unfold stdSetInsert
    split
    · exact List.mem_cons_self _ _
    · split
      · exact List.mem_cons_of_mem _ ih
      · rename_i h1 h2
        have : a = b := tri a b (by simpa using h1) (by simpa using h2)
        exact this ▸ List.mem_cons_self _ _

theorem mem_stdSetInsert {α : Type} {lt : α → α → Bool}
    (tri : ∀ a b, lt a b = false → lt b a = false → a = b) {a x : α} {s : List α} :
    x ∈ stdSetInsert lt a s ↔ x = a ∨ x ∈ s := by
  constructor
  · exact mem_stdSetInsert_imp
  · rintro (h | h)
    · exact h ▸ self_mem_stdSetInsert tri a s
    · exact mem_stdSetInsert_of_mem h

theorem pairwise_stdSetInsert {α : Type} {lt : α → α → Bool}
    (trans : ∀ a b c, lt a b = true → lt b c = true → lt a c = true) (a : α) {s : List α}
    (h : s.Pairwise (fun x y => lt x y = true)) :
    (stdSetInsert lt a s).Pairwise (fun x y => lt x y = true) := by
  induction s with
  | nil => simp [stdSetInsert]
  | cons b s ih =>
    obtain ⟨hb, hs⟩ := List.pairwise_cons.mp h
    unfold stdSetInsert
    split
    · rename_i hab
      refine List.pairwise_cons.mpr ⟨?_, h⟩
      intro x hx
      rcases List.mem_cons.mp hx with hx | hx
      · exact hx ▸ hab
      · exact trans a b x hab (hb x hx)
    · split
      · rename_i hba
        refine List.pairwise_cons.mpr ⟨?_, ih hs⟩
        intro x hx
        rcases mem_stdSetInsert_imp hx with hx | hx
        · exact hx ▸ hba
        · exact hb x hx
      · exact h

theorem mem_foldl_stdSetInsert {α β : Type} {lt : α → α → Bool}
    (tri : ∀ a b, lt a b = false → lt b a = false → a = b) (f : β → α) (l : List β)
    (s : List α) (x : α) :
    x ∈ l.foldl (fun s v => stdSetInsert lt (f v) s) s ↔ x ∈ s ∨ ∃ v ∈ l, x = f v := by
  induction l generalizing s with
  | nil => simp
  | cons v l ih =>
    rw [List.foldl_cons, ih, mem_stdSetInsert tri]
    constructor
    · rintro ((h | h) | ⟨w, hw, h⟩)
      · exact Or.inr ⟨v, List.mem_cons_self _ _, h⟩
      · exact Or.inl h
      · exact Or.inr ⟨w, List.mem_cons_of_mem _ hw, h⟩
    · rintro (h | ⟨w, hw, h⟩)
      · exact Or.inl (Or.inr h)
      · rcases List.mem_cons.mp hw with hw | hw
        · exact Or.inl (Or.inl (hw ▸ h))
        · exact Or.inr ⟨w, hw, h⟩

theorem pairwise_foldl_stdSetInsert {α β : Type} {lt : α → α → Bool}
    (trans : ∀ a b c, lt a b = true → lt b c = true → lt a c = true) (f : β → α) (l : List β)
    (s : List α) (h : s.Pairwise (fun x y => lt x y = true)) :
    (l.foldl (fun s v => stdSetInsert lt (f v) s) s).Pairwise (fun x y => lt x y = true) := by
  induction l generalizing s with
  | nil => simpa using h
  | cons v l ih =>
    rw [List.foldl_cons]
    exact ih _ (pairwise_stdSetInsert trans _ h)

theorem nodup_of_pairwise_lt {α : Type} {lt : α → α → Bool} (irrefl : ∀ a, lt a a = false)
    {s : List α} (h : s.Pairwise (fun x y => lt x y = true)) : s.Nodup := by
  refine List.Pairwise.imp ?_ h
  intro a b hab heq
  rw [heq, irrefl] at hab
  cases hab

/-! ### Patch status -/

/-- C1: for every validation state and lock flag both classifiers print the
text of the status that the specification's table assigns: BROKEN+locked is
Locked, BROKEN+unlocked is Needed, SATISFIED is Applied, NONRELEVANT is
NotNeeded, everything else Undetermined; the XML texts of the five statuses are
pairwise distinct, and the lock flag matters only for BROKEN. -/
theorem C1_classifiers_follow_table (z : Zypper) (pool : ResPool) (pi : PoolItem) :
    i18nPatchStatusAsString z pool pi
        = (specClassify (pool.validate pi) (pool.isUnwanted pi)).i18nText z
    ∧ xml_patchStatusAsString pool pi
        = (specClassify (pool.validate pi) (pool.isUnwanted pi)).xmlText
    ∧ (∀ s t : Status, s.xmlText = t.xmlText → s = t)
    ∧ (pool.validate pi ≠ ValidateValue.BROKEN →
        ∀ pool2 : ResPool, pool2.validate pi = pool.validate pi →
          i18nPatchStatusAsString z pool2 pi = i18nPatchStatusAsString z pool pi
          ∧ xml_patchStatusAsString pool2 pi = xml_patchStatusAsString pool pi) := by
  refine ⟨?_, ?_, ?_, ?_⟩
  · unfold i18nPatchStatusAsString specClassify
    cases hv : pool.validate pi <;> cases hl : pool.isUnwanted pi <;> simp [Status.i18nText]
  · unfold xml_patchStatusAsString specClassify
    cases hv : pool.validate pi <;> cases hl : pool.isUnwanted pi <;> simp [Status.xmlText]
  · intro s t
    cases s <;> cases t <;> simp [Status.xmlText]
  · intro hne pool2 h2
    unfold i18nPatchStatusAsString xml_patchStatusAsString
    rw [h2]
    cases hv : pool.validate pi <;> simp_all

/-- C1 (instance): a locked and an unlocked applied patch get the same status
text from both classifiers. -/
theorem C1_classifiers_follow_table_witness :
    i18nPatchStatusAsString zPlain poolAppliedUnlocked 0
        = i18nPatchStatusAsString zPlain poolAppliedLocked 0
    ∧ xml_patchStatusAsString poolAppliedUnlocked 0
        = xml_patchStatusAsString poolAppliedLocked 0 :=
  (C1_classifiers_follow_table zPlain poolAppliedLocked 0).2.2.2 (by decide)
    poolAppliedUnlocked (by decide)

/-! ### Issue filters -/

theorem str.split_ne_empty {line : String} {sep : Char} {w : String}
    (h : w ∈ str.split line sep) : w ≠ "" := by
  simp only [str.split, List.mem_map, List.mem_filter] at h
  obtain ⟨cs, ⟨_, hcs⟩, rfl⟩ := h
  intro he
  have : cs = [] := congrArg String.data he
  simp [this] at hcs

theorem CliScanIssues.scanValues_foldl (vals : List String) (b : Bool) (ids : List String) :
    vals.foldl
      (fun (acc : Bool × List String) (val : String) =>
        let words := str.split val ','
        (if words.length == 0 then true else acc.1, acc.2 ++ words))
      (b, ids) = (b || suppliedBare vals, ids ++ parsedIds vals) := by
  induction vals generalizing b ids with
  | nil => simp [suppliedBare, parsedIds]
  | cons v vals ih =>
    rw [List.foldl_cons, ih]
    cases hv : str.split v ',' with
    | nil => simp [suppliedBare, parsedIds, hv]
    | cons w ws => simp [suppliedBare, parsedIds, hv]

theorem CliScanIssues.scanValues_eq (vals : List String) :
    CliScanIssues.scanValues vals = (suppliedBare vals, parsedIds vals) := by
  unfold CliScanIssues.scanValues
  rw [CliScanIssues.scanValues_foldl]
  simp

theorem CliScanIssues.mem_checkCLI (z : Zypper) (cliOption issueType : String)
    (self : List Issue) (x : Issue) :
    x ∈ (CliScanIssues.checkCLI z cliOption issueType self).1
      ↔ x ∈ self ∨ x ∈ specContribution issueType (z.cOptValues cliOption) := by
  unfold CliScanIssues.checkCLI specContribution
  simp only [CliScanIssues.scanValues_eq]
  by_cases hids : (parsedIds (z.cOptValues cliOption)).isEmpty = true
  · by_cases hbare : suppliedBare (z.cOptValues cliOption) = true
    · simp only [hids, hbare, if_true]
      rw [mem_stdSetInsert (fun a b => Issue.eq_of_not_lt)]
      simp [or_comm]
    · simp [hids, hbare]
  · simp only [hids, if_false, Bool.false_eq_true]
    rw [mem_foldl_stdSetInsert (fun a b => Issue.eq_of_not_lt)]
    simp [eq_comm]

theorem CliScanIssues.pairwise_checkCLI (z : Zypper) (cliOption issueType : String)
    (self : List Issue) (h : self.Pairwise (fun x y => Issue.lt x y = true)) :
    (CliScanIssues.checkCLI z cliOption issueType self).1.Pairwise
      (fun x y => Issue.lt x y = true) := by
  unfold CliScanIssues.checkCLI
  simp only
  split
  · split
    · exact @pairwise_stdSetInsert Issue Issue.lt (fun _ _ _ => Issue.lt_trans) _ _ h
    · exact h
  · exact @pairwise_foldl_stdSetInsert Issue String Issue.lt (fun _ _ _ => Issue.lt_trans) _ _ _ h

theorem CliScanIssues.mem_iff (z : Zypper) (x : Issue) :
    x ∈ (CliScanIssues z).1
      ↔ ∃ f ∈ CliScanIssues.flags, x ∈ specContribution f.2 (z.cOptValues f.1) := by
  unfold CliScanIssues
  simp only [CliScanIssues.mem_checkCLI, CliScanIssues.flags]
  simp [or_assoc]

theorem CliScanIssues.pairwise (z : Zypper) :
    (CliScanIssues z).1.Pairwise (fun x y => Issue.lt x y = true) := by
  unfold CliScanIssues
  exact CliScanIssues.pairwise_checkCLI _ _ _ _ (CliScanIssues.pairwise_checkCLI _ _ _ _
    (CliScanIssues.pairwise_checkCLI _ _ _ _ (CliScanIssues.pairwise_checkCLI _ _ _ _
      List.Pairwise.nil)))

theorem wildcard_mem_specContribution (issueType T : String) (vals : List String) :
    (⟨T, ""⟩ : Issue) ∈ specContribution issueType vals
      ↔ issueType = T ∧ suppliedBare vals = true ∧ parsedIds vals = [] := by
  unfold specContribution
  by_cases hids : parsedIds vals = []
  · by_cases hbare : suppliedBare vals = true
    · simp [hids, hbare, eq_comm]
    · simp [hids, hbare]
  · have hne : ∀ i ∈ parsedIds vals, i ≠ "" := by
      intro i hi
      simp only [parsedIds, List.mem_flatMap] at hi
      obtain ⟨v, _, hv⟩ := hi
      exact str.split_ne_empty hv
    have hemp : (parsedIds vals).isEmpty = false := by
      cases h : parsedIds vals with
      | nil => exact absurd h hids
      | cons a l => rfl
    simp only [hemp, Bool.false_eq_true, if_false, List.mem_map, hids, and_false, iff_false]
    rintro ⟨i, hi, h⟩
    have : i = "" := by injection h
    exact hne i hi this

theorem specContribution_eq_nil (issueType : String) (vals : List String) :
    specContribution issueType vals = [] ↔ vals = [] := by
  cases vals with
  | nil => simp [specContribution, parsedIds, suppliedBare]
  | cons v vals =>
    simp only [reduceCtorEq, iff_false]
    unfold specContribution
    by_cases h : (parsedIds (v :: vals)).isEmpty = true
    · have hv : (str.split v ',').isEmpty = true := by
        simp only [parsedIds, List.flatMap_cons, List.isEmpty_eq_true, List.append_eq_nil] at h
        simp [h.1]
      simp [h, suppliedBare, hv]
    · simp only [h, Bool.false_eq_true, if_false, List.map_eq_nil_iff]
      intro h2
      simp [h2] at h

theorem CliScanIssues.fst_congr (z1 z2 : Zypper) (h : z1.cOptValues = z2.cOptValues) :
    (CliScanIssues z1).1 = (CliScanIssues z2).1 := by
  have step : ∀ o t s, (CliScanIssues.checkCLI z1 o t s).1 = (CliScanIssues.checkCLI z2 o t s).1 := by
    intro o t s
    unfold CliScanIssues.checkCLI
    simp only [h]
    split
    · split <;> rfl
    · rfl
  unfold CliScanIssues
  simp only [step]

/-- C2 as stated fails: with `--bugzilla=123 --bz` the type bugzilla has an id
(from flag bugzilla) and a bare form (from its alias bz), and the issue set
still contains the wildcard entry (bugzilla, ""). -/
theorem C2_alias_counterexample :
    parsedIds (zBugzillaIdBzBare.cOptValues "bugzilla") ≠ []
    ∧ suppliedBare (zBugzillaIdBzBare.cOptValues "bz") = true
    ∧ (⟨"bugzilla", ""⟩ : Issue) ∈ (CliScanIssues zBugzillaIdBzBare).1 := by
  decide

/-- C2 (amended): if every flag of tracker type T that was supplied bare was
itself also supplied with at least one id, the issue set does not contain the
wildcard entry (T, ""). -/
theorem C2_bare_dropped_per_flag (z : Zypper) (T : String)
    (h : ∀ f ∈ CliScanIssues.flags, f.2 = T → suppliedBare (z.cOptValues f.1) = true →
      parsedIds (z.cOptValues f.1) ≠ []) :
    (⟨T, ""⟩ : Issue) ∉ (CliScanIssues z).1 := by
  rw [CliScanIssues.mem_iff]
  rintro ⟨f, hf, hmem⟩
  rw [wildcard_mem_specContribution] at hmem
  exact h f hf hmem.1 hmem.2.1 hmem.2.2

/-- C2 (amended, instance): `--bugzilla=123 --bugzilla` yields no wildcard
entry for type bugzilla. -/
theorem C2_bare_dropped_per_flag_witness :
    (⟨"bugzilla", ""⟩ : Issue) ∉ (CliScanIssues zBugzillaIdAndBare).1 :=
  C2_bare_dropped_per_flag zBugzillaIdAndBare "bugzilla" (by decide)

/-- C3: each `checkCLI` call adds exactly the flag's contribution (the parsed
ids, all non-empty, when there are any; else the wildcard entry when the flag
was given bare; nothing exactly when the flag was not supplied); the issue set
is the duplicate-free union of the four contributions; no flags give the empty
set and bare `--issues --cve` give exactly ("", "") and ("cve", ""). -/
theorem C3_checkCLI_contribution (z : Zypper) :
    (∀ (cliOption issueType : String) (self : List Issue) (x : Issue),
        x ∈ (CliScanIssues.checkCLI z cliOption issueType self).1
          ↔ x ∈ self ∨ x ∈ specContribution issueType (z.cOptValues cliOption))
    ∧ (∀ x : Issue, x ∈ (CliScanIssues z).1
          ↔ ∃ f ∈ CliScanIssues.flags, x ∈ specContribution f.2 (z.cOptValues f.1))
    ∧ (CliScanIssues z).1.Nodup
    ∧ (∀ (issueType : String) (vals : List String),
        specContribution issueType vals = [] ↔ vals = [])
    ∧ (∀ vals : List String, "" ∉ parsedIds vals)
    ∧ (CliScanIssues { z with cOptValues := fun _ => [] }).1 = []
    ∧ (CliScanIssues
        { z with cOptValues := fun o => if o = "issues" ∨ o = "cve" then [""] else [] }).1
        = [⟨"", ""⟩, ⟨"cve", ""⟩] := by
  refine ⟨CliScanIssues.mem_checkCLI z, CliScanIssues.mem_iff z,
    nodup_of_pairwise_lt Issue.lt_irrefl (CliScanIssues.pairwise z),
    specContribution_eq_nil, ?_, ?_, ?_⟩
  · intro vals hmem
    simp only [parsedIds, List.mem_flatMap] at hmem
    obtain ⟨v, _, hv⟩ := hmem
    exact str.split_ne_empty hv rfl
  · exact (CliScanIssues.fst_congr _ zPlain rfl).trans (by decide)
  · exact (CliScanIssues.fst_congr _
      (zypperWith (fun o => if o = "issues" ∨ o = "cve" then [""] else []) (fun _ => 0))
      rfl).trans (by decide)

/-! ### Marking loops -/

theorem mark_updates_by_issue.matchLoop_spec {σ : Type} (sr : SolverRequester σ) (issue : Issue)
    (pi : PoolItem) (ds : List RefMatch) (acc : Bool × MarkState σ) :
    ∃ new : List InstallRequest,
      (mark_updates_by_issue.matchLoop sr issue pi ds acc).2.requests = acc.2.requests ++ new
      ∧ new.map (fun r => (r.item, r.ref))
          = (ds.filter (fun d => !(issue.specificType && d.refType != issue.type))).map
              (fun d => (pi, d))
      ∧ (∀ r ∈ new, r.issue = issue)
      ∧ (mark_updates_by_issue.matchLoop sr issue pi ds acc).1
          = (acc.1 || new.any (fun r => r.result))
      ∧ (mark_updates_by_issue.matchLoop sr issue pi ds acc).2.exitCode = acc.2.exitCode
      ∧ (mark_updates_by_issue.matchLoop sr issue pi ds acc).2.out = acc.2.out := by
  induction ds generalizing acc with
  | nil => exact ⟨[], by simp [mark_updates_by_issue.matchLoop]⟩
  | cons d ds ih =>
    unfold mark_updates_by_issue.matchLoop
    rw [List.foldl_cons]
    by_cases hskip : (issue.specificType && d.refType != issue.type) = true
    · obtain ⟨new, h1, h2, h3, h4, h5, h6⟩ := ih acc
      refine ⟨new, ?_, ?_, h3, ?_, ?_, ?_⟩
      · simpa [hskip, mark_updates_by_issue.matchLoop] using h1
      · rw [List.filter_cons_of_neg (by simp [hskip])]
        exact h2
      · simpa [hskip, mark_updates_by_issue.matchLoop] using h4
      · simpa [hskip, mark_updates_by_issue.matchLoop] using h5
      · simpa [hskip, mark_updates_by_issue.matchLoop] using h6
    · obtain ⟨new, h1, h2, h3, h4, h5, h6⟩ := ih
        (if (sr.installPatch acc.2.solver pi).1 then true else acc.1,
         { acc.2 with solver := (sr.installPatch acc.2.solver pi).2,
                      requests := acc.2.requests
                        ++ [⟨issue, pi, d, (sr.installPatch acc.2.solver pi).1⟩] })
      refine ⟨⟨issue, pi, d, (sr.installPatch acc.2.solver pi).1⟩ :: new, ?_, ?_, ?_, ?_, ?_, ?_⟩
      · simpa [hskip, mark_updates_by_issue.matchLoop] using h1
      · have hkeep : (!(issue.specificType && d.refType != issue.type)) = true := by
          cases h : (issue.specificType && d.refType != issue.type)
          · rfl
          · exact absurd h hskip
        have hf := @List.filter_cons_of_pos RefMatch
          (fun d => !(issue.specificType && d.refType != issue.type)) d ds hkeep
        rw [hf, List.map_cons, List.map_cons, h2]
      · intro r hr
        rcases List.mem_cons.mp hr with hr | hr
        · rw [hr]
        · exact h3 r hr
      · simp only [hskip, Bool.false_eq_true, if_false]
        simp only [mark_updates_by_issue.matchLoop] at h4
        rw [h4]
        cases (sr.installPatch acc.2.solver pi).1 <;> simp
      · simpa [hskip, mark_updates_by_issue.matchLoop] using h5
      · simpa [hskip, mark_updates_by_issue.matchLoop] using h6

theorem mark_updates_by_issue.hitLoop_spec {σ : Type} (pool : ResPool) (sr : SolverRequester σ)
    (issue : Issue) (hits : List QueryHit) (acc : Bool × MarkState σ) :
    ∃ new : List InstallRequest,
      (mark_updates_by_issue.hitLoop pool sr issue hits acc).2.requests = acc.2.requests ++ new
      ∧ new.map (fun r => (r.item, r.ref))
          = mark_updates_by_issue.acceptedMatches pool issue hits
      ∧ (∀ r ∈ new, r.issue = issue)
      ∧ (mark_updates_by_issue.hitLoop pool sr issue hits acc).1
          = (acc.1 || new.any (fun r => r.result))
      ∧ (mark_updates_by_issue.hitLoop pool sr issue hits acc).2.exitCode = acc.2.exitCode
      ∧ (mark_updates_by_issue.hitLoop pool sr issue hits acc).2.out = acc.2.out := by
  induction hits generalizing acc with
  | nil =>
    exact ⟨[], by simp [mark_updates_by_issue.hitLoop, mark_updates_by_issue.acceptedMatches]⟩
  | cons hit hits ih =>
    unfold mark_updates_by_issue.hitLoop
    rw [List.foldl_cons]
    by_cases hb : pool.isBroken hit.item = true
    · obtain ⟨n1, a1, a2, a3, a4, a5, a6⟩ :=
        mark_updates_by_issue.matchLoop_spec sr issue hit.item hit.matchList acc
      obtain ⟨n2, b1, b2, b3, b4, b5, b6⟩ :=
        ih (mark_updates_by_issue.matchLoop sr issue hit.item hit.matchList acc)
      simp only [mark_updates_by_issue.hitLoop] at b1 b4 b5 b6
      refine ⟨n1 ++ n2, ?_, ?_, ?_, ?_, ?_, ?_⟩
      · simp only [hb, Bool.not_true, Bool.false_eq_true, if_false]
        rw [b1, a1, List.append_assoc]
      · rw [List.map_append, a2, b2]
        simp [mark_updates_by_issue.acceptedMatches, hb]
      · intro r hr
        rcases List.mem_append.mp hr with hr | hr
        · exact a3 r hr
        · exact b3 r hr
      · simp only [hb, Bool.not_true, Bool.false_eq_true, if_false]
        rw [b4, a4, List.any_append, Bool.or_assoc]
      · simp only [hb, Bool.not_true, Bool.false_eq_true, if_false]
        rw [b5, a5]
      · simp only [hb, Bool.not_true, Bool.false_eq_true, if_false]
        rw [b6, a6]
    · obtain ⟨n2, b1, b2, b3, b4, b5, b6⟩ := ih acc
      simp only [mark_updates_by_issue.hitLoop] at b1 b4 b5 b6
      refine ⟨n2, ?_, ?_, b3, ?_, ?_, ?_⟩
      · simpa [hb] using b1
      · rw [b2]
        simp [mark_updates_by_issue.acceptedMatches, hb]
      · simpa [hb] using b4
      · simpa [hb] using b5
      · simpa [hb] using b6

theorem mark_updates_by_issue.mem_acceptedMatches (pool : ResPool) (issue : Issue)
    (hits : List QueryHit) (pi : PoolItem) (d : RefMatch) :
    (pi, d) ∈ mark_updates_by_issue.acceptedMatches pool issue hits
      ↔ ∃ hit ∈ hits, hit.item = pi ∧ pool.isBroken pi = true ∧ d ∈ hit.matchList
          ∧ (issue.specificType = true → d.refType = issue.type) := by
  unfold mark_updates_by_issue.acceptedMatches
  simp only [List.mem_flatMap]
  constructor
  · rintro ⟨hit, hhit, hmem⟩
    by_cases hb : pool.isBroken hit.item = true
    · simp only [hb, if_true, List.mem_map, List.mem_filter, Prod.mk.injEq] at hmem
      obtain ⟨d', ⟨hd, hok⟩, hpi, rfl⟩ := hmem
      refine ⟨hit, hhit, hpi, hpi ▸ hb, hd, ?_⟩
      intro hs
      simpa [hs] using hok
    · simp [hb] at hmem
  · rintro ⟨hit, hhit, rfl, hb, hd, hok⟩
    refine ⟨hit, hhit, ?_⟩
    simp only [hb, if_true, List.mem_map, List.mem_filter, Prod.mk.injEq]
    refine ⟨d, ⟨hd, ?_⟩, trivial, rfl⟩
    cases hs : issue.specificType
    · simp
    · simpa [hs] using hok hs

theorem mark_updates_by_issue.step_spec {σ : Type} (z : Zypper) (pool : ResPool)
    (engine : QueryEngine) (sr : SolverRequester σ) (issue : Issue) (st : MarkState σ) :
    ∃ new : List InstallRequest,
      (mark_updates_by_issue.step z pool engine sr issue st).2.requests = st.requests ++ new
      ∧ new.map (fun r => (r.item, r.ref))
          = mark_updates_by_issue.acceptedMatches pool issue
              (engine (mark_updates_by_issue.issueQuery issue))
      ∧ (∀ r ∈ new, r.issue = issue)
      ∧ (mark_updates_by_issue.step z pool engine sr issue st).1
          = new.any (fun r => r.result)
      ∧ (mark_updates_by_issue.step z pool engine sr issue st).2.exitCode
          = (if (mark_updates_by_issue.step z pool engine sr issue st).1 then st.exitCode
             else z.ZYPPER_EXIT_INF_CAP_NOT_FOUND)
      ∧ (mark_updates_by_issue.step z pool engine sr issue st).2.out
          = st.out
            ++ sr.printFeedback (mark_updates_by_issue.step z pool engine sr issue st).2.solver
            ++ (if (mark_updates_by_issue.step z pool engine sr issue st).1 then []
                else [mark_updates_by_issue.notFoundInfo z issue]) := by
  obtain ⟨new, h1, h2, h3, h4, h5, h6⟩ :=
    mark_updates_by_issue.hitLoop_spec pool sr issue
      (engine (mark_updates_by_issue.issueQuery issue))
      (false, { st with solver := sr.create st.solver })
  refine ⟨new, ?_, h2, h3, ?_, ?_, ?_⟩
  all_goals
    unfold mark_updates_by_issue.step
    simp only
    cases hf : (mark_updates_by_issue.hitLoop pool sr issue
      (engine (mark_updates_by_issue.issueQuery issue))
      (false, { st with solver := sr.create st.solver })).1
    all_goals simp_all

theorem mark_updates_by_issue.newRequests_step {σ : Type} (z : Zypper) (pool : ResPool)
    (engine : QueryEngine) (sr : SolverRequester σ) (issue : Issue) (st : MarkState σ) :
    (mark_updates_by_issue.newRequests st
        (mark_updates_by_issue.step z pool engine sr issue st).2).map (fun r => (r.item, r.ref))
      = mark_updates_by_issue.acceptedMatches pool issue
          (engine (mark_updates_by_issue.issueQuery issue))
    ∧ (mark_updates_by_issue.step z pool engine sr issue st).1
        = (mark_updates_by_issue.newRequests st
            (mark_updates_by_issue.step z pool engine sr issue st).2).any (fun r => r.result)
    ∧ (mark_updates_by_issue.step z pool engine sr issue st).2.requests
        = st.requests ++ mark_updates_by_issue.newRequests st
            (mark_updates_by_issue.step z pool engine sr issue st).2 := by
  obtain ⟨new, h1, h2, _, h4, _, _⟩ := mark_updates_by_issue.step_spec z pool engine sr issue st
  have hnew : mark_updates_by_issue.newRequests st
      (mark_updates_by_issue.step z pool engine sr issue st).2 = new := by
    unfold mark_updates_by_issue.newRequests
    rw [h1, List.drop_left]
  rw [hnew]
  exact ⟨h2, h4, h1⟩

theorem mark_updates_by_issue.run_exitCode {σ : Type} (z : Zypper) (pool : ResPool)
    (engine : QueryEngine) (sr : SolverRequester σ) (issues : List Issue) (st : MarkState σ) :
    (mark_updates_by_issue.run z pool engine sr issues st).exitCode
      = (if (mark_updates_by_issue.outcomes z pool engine sr issues st).any (fun o => !o.2)
         then z.ZYPPER_EXIT_INF_CAP_NOT_FOUND else st.exitCode) := by
  induction issues generalizing st with
  | nil => simp [mark_updates_by_issue.run, mark_updates_by_issue.outcomes]
  | cons issue issues ih =>
    have hrun : mark_updates_by_issue.run z pool engine sr (issue :: issues) st
        = mark_updates_by_issue.run z pool engine sr issues
            (mark_updates_by_issue.step z pool engine sr issue st).2 := rfl
    obtain ⟨_, _, _, _, _, hexit, _⟩ :=
      mark_updates_by_issue.step_spec z pool engine sr issue st
    rw [hrun, ih, hexit]
    simp only [mark_updates_by_issue.outcomes, List.any_cons]
    rcases Bool.eq_false_or_eq_true (mark_updates_by_issue.step z pool engine sr issue st).1
      with h1 | h1
    · simp only [h1, if_true, Bool.not_true, Bool.false_or]
    · simp only [h1, Bool.false_eq_true, if_false, Bool.not_false, Bool.true_or, if_true]
      split <;> rfl

theorem mark_updates_by_issue.outcomes_issues {σ : Type} (z : Zypper) (pool : ResPool)
    (engine : QueryEngine) (sr : SolverRequester σ) (issues : List Issue) (st : MarkState σ) :
    (mark_updates_by_issue.outcomes z pool engine sr issues st).map (fun o => o.1) = issues := by
  induction issues generalizing st with
  | nil => rfl
  | cons issue issues ih => simp [mark_updates_by_issue.outcomes, ih]

/-! ### Listing -/

theorem list_patches_by_issue.mem_issueRows (z : Zypper) (pool : ResPool) (engine : QueryEngine)
    (issue : Issue) (row : TableRow) :
    row ∈ list_patches_by_issue.issueRows z pool engine issue
      ↔ ∃ hit ∈ engine (list_patches_by_issue.issueQuery issue), ∃ d ∈ hit.matchList,
          (z.cOptsCount "all" = 0 → patchIsApplicable pool hit.item = true)
          ∧ z.cliMatchPatch (pool.asPatch hit.item) = true
          ∧ (issue.specificType = true → d.refType = issue.type)
          ∧ row = [d.refType, d.refId, (pool.asPatch hit.item).name,
                   patchHighlight z (pool.asPatch hit.item).category,
                   patchHighlight z (pool.asPatch hit.item).severity,
                   interactiveFlags z (pool.asPatch hit.item),
                   i18nPatchStatusAsString z pool hit.item] := by
  unfold list_patches_by_issue.issueRows list_patches_by_issue.hitRows
  simp only [List.mem_flatMap]
  constructor
  · rintro ⟨hit, hhit, hmem⟩
    refine ⟨hit, hhit, ?_⟩
    split at hmem
    · cases hmem
    · rename_i hneed
      split at hmem
      · cases hmem
      · rename_i hcli
        simp only [List.mem_map, List.mem_filter] at hmem
        obtain ⟨d, ⟨hd, hok⟩, rfl⟩ := hmem
        refine ⟨d, hd, ?_, by simpa using hcli, ?_, rfl⟩
        · intro hall
          simpa [hall] using hneed
        · intro hs
          simpa [hs] using hok
  · rintro ⟨hit, hhit, d, hd, hneed, hcli, hok, rfl⟩
    refine ⟨hit, hhit, ?_⟩
    have h1 : ¬ ((z.cOptsCount "all" == 0 && !patchIsApplicable pool hit.item) = true) := by
      intro h
      simp only [Bool.and_eq_true, beq_iff_eq, Bool.not_eq_true'] at h
      rw [hneed h.1] at h
      exact absurd h.2 (by simp)
    rw [if_neg h1, if_neg (by simp [hcli])]
    simp only [List.mem_map, List.mem_filter]
    refine ⟨d, ⟨hd, ?_⟩, rfl⟩
    cases hs : issue.specificType
    · simp
    · simpa [hs] using hok hs

theorem list_patches_by_issue.mem_t (z : Zypper) (pool : ResPool) (engine : QueryEngine)
    (row : TableRow) :
    row ∈ (list_patches_by_issue z pool engine).t
      ↔ ∃ issue ∈ (CliScanIssues z).1,
          row ∈ list_patches_by_issue.issueRows z pool engine issue := by
  unfold list_patches_by_issue Table.sort
  simp only [List.mem_insertionSort, List.mem_flatMap]

theorem list_patches_by_issue.mem_pass2Rows (z : Zypper) (pool : ResPool) (engine : QueryEngine)
    (issue : Issue) (row : TableRow) :
    row ∈ list_patches_by_issue.pass2Rows z pool engine issue
      ↔ ∃ hit ∈ engine (list_patches_by_issue.pass2Query issue),
          (z.cOptsCount "all" = 0 → patchIsApplicable pool hit.item = true)
          ∧ z.cliMatchPatch (pool.asPatch hit.item) = true
          ∧ row = [(pool.asPatch hit.item).name,
                   patchHighlight z (pool.asPatch hit.item).category,
                   patchHighlight z (pool.asPatch hit.item).severity,
                   interactiveFlags z (pool.asPatch hit.item),
                   (pool.asPatch hit.item).summary] := by
  unfold list_patches_by_issue.pass2Rows
  simp only [List.mem_flatMap]
  constructor
  · rintro ⟨hit, hhit, hmem⟩
    refine ⟨hit, hhit, ?_⟩
    split at hmem
    · cases hmem
    · rename_i hneed
      split at hmem
      · cases hmem
      · rename_i hcli
        refine ⟨?_, by simpa using hcli, by simpa using hmem⟩
        intro hall
        simpa [hall] using hneed
  · rintro ⟨hit, hhit, hneed, hcli, rfl⟩
    refine ⟨hit, hhit, ?_⟩
    have h1 : ¬ ((z.cOptsCount "all" == 0 && !patchIsApplicable pool hit.item) = true) := by
      intro h
      simp only [Bool.and_eq_true, beq_iff_eq, Bool.not_eq_true'] at h
      rw [hneed h.1] at h
      exact absurd h.2 (by simp)
    rw [if_neg h1, if_neg (by simp [hcli])]
    simp

theorem list_patches_by_issue.mem_t1 (z : Zypper) (pool : ResPool) (engine : QueryEngine)
    (row : TableRow) :
    row ∈ (list_patches_by_issue z pool engine).t1
      ↔ ∃ issue ∈ (CliScanIssues z).1, list_patches_by_issue.remembered issue = true
          ∧ row ∈ list_patches_by_issue.pass2Rows z pool engine issue := by
  unfold list_patches_by_issue Table.sort
  simp only [List.mem_insertionSort, List.mem_flatMap, List.mem_filter]
  constructor
  · rintro ⟨i, ⟨h1, h2⟩, h3⟩
    exact ⟨i, h1, h2, h3⟩
  · rintro ⟨i, h1, h2, h3⟩
    exact ⟨i, ⟨h1, h2⟩, h3⟩

theorem Table.sort_sorted (by_column : Nat) (rows : List TableRow) :
    List.Sorted (fun a b : TableRow => (a.getD by_column "").data ≤ (b.getD by_column "").data)
      (Table.sort by_column rows) := by
  haveI : IsTotal TableRow
      (fun a b : TableRow => (a.getD by_column "").data ≤ (b.getD by_column "").data) :=
    ⟨fun a b => le_total _ _⟩
  haveI : IsTrans TableRow
      (fun a b : TableRow => (a.getD by_column "").data ≤ (b.getD by_column "").data) :=
    ⟨fun a b c hab hbc => le_trans hab hbc⟩
  exact List.sorted_insertionSort _ rows

theorem Table.sort_perm (by_column : Nat) (rows : List TableRow) :
    (Table.sort by_column rows).Perm rows :=
  List.perm_insertionSort _ rows

/-- C4: for an issue with a specific type, every row that listing mode emits
for it carries that type in its first column, and every reference entry for
which marking mode calls `installPatch` has that type; every row of the printed
table was emitted for some issue of the set.  For (cve, "") and a patch
referencing cve/CVE-2024-0001 and bugzilla/99999, returned with both entries as
matches, the table holds the cve row only. -/
theorem C4_type_postfilter (z : Zypper) (pool : ResPool) (engine : QueryEngine) (issue : Issue)
    (hspec : issue.specificType = true) :
    (∀ row ∈ list_patches_by_issue.issueRows z pool engine issue,
        row.head? = some issue.type)
    ∧ (∀ (σ : Type) (sr : SolverRequester σ) (st : MarkState σ),
        ∀ r ∈ mark_updates_by_issue.newRequests st
                (mark_updates_by_issue.step z pool engine sr issue st).2,
          r.ref.refType = issue.type)
    ∧ (∀ row ∈ (list_patches_by_issue z pool engine).t,
        ∃ issue2 ∈ (CliScanIssues z).1,
          row ∈ list_patches_by_issue.issueRows z pool engine issue2)
    ∧ (list_patches_by_issue zCveBare poolScenarioA (queryPatchesCoarse poolScenarioA)).t
        = [["cve", "CVE-2024-0001", "patch-a", "security", "moderate", "---", "needed"]] := by
  refine ⟨?_, ?_, ?_, by decide⟩
  · intro row hrow
    obtain ⟨hit, _, d, _, _, _, hok, rfl⟩ :=
      (list_patches_by_issue.mem_issueRows z pool engine issue row).mp hrow
    simp [hok hspec]
  · intro σ sr st r hr
    have hmap := (mark_updates_by_issue.newRequests_step z pool engine sr issue st).1
    have hmem : (r.item, r.ref) ∈ mark_updates_by_issue.acceptedMatches pool issue
        (engine (mark_updates_by_issue.issueQuery issue)) := by
      rw [← hmap]
      exact List.mem_map.mpr ⟨r, hr, rfl⟩
    obtain ⟨_, _, _, _, _, hok⟩ :=
      (mark_updates_by_issue.mem_acceptedMatches pool issue _ r.item r.ref).mp hmem
    exact hok hspec
  · intro row hrow
    exact (list_patches_by_issue.mem_t z pool engine row).mp hrow

/-- C4 (instance): for (cve, "") in scenario A every emitted row has type cve,
and the one `installPatch` call of marking mode is for the cve entry. -/
theorem C4_type_postfilter_witness :
    (∀ row ∈ list_patches_by_issue.issueRows zCveBare poolScenarioA
        (queryPatchesCoarse poolScenarioA) ⟨"cve", ""⟩, row.head? = some "cve")
    ∧ (mark_updates_by_issue zCveBare poolScenarioA (queryPatchesCoarse poolScenarioA)
        srAlwaysMarks markStart).requests
        = [⟨⟨"cve", ""⟩, 0, ⟨"cve", "CVE-2024-0001"⟩, true⟩] :=
  ⟨(C4_type_postfilter zCveBare poolScenarioA (queryPatchesCoarse poolScenarioA) ⟨"cve", ""⟩
      (by decide)).1, by decide⟩

/-- C5 as stated fails: with `--bugzilla` and two needed patches, patch-x
(recommended, bugzilla/1) and patch-y (optional, bugzilla/2), the printed table
has the issue numbers in the order 2, 1, which is not sorted. -/
theorem C5_refId_order_counterexample :
    (list_patches_by_issue zBugzillaBare poolTwoBugs (queryPatches poolTwoBugs)).t
      = [["bugzilla", "2", "patch-y", "optional", "moderate", "---", "needed"],
         ["bugzilla", "1", "patch-x", "recommended", "moderate", "---", "needed"]]
    ∧ ¬ List.Sorted (fun a b : String => a.data ≤ b.data)
        ((list_patches_by_issue zBugzillaBare poolTwoBugs (queryPatches poolTwoBugs)).t.map
          (fun row => row.getD 1 ""))
    ∧ OutEvent.table (list_patches_by_issue zBugzillaBare poolTwoBugs (queryPatches poolTwoBugs)).t
        ∈ (list_patches_by_issue zBugzillaBare poolTwoBugs (queryPatches poolTwoBugs)).out := by
  decide

/-- C5 (amended): the authoritative table is a rearrangement of the rows
accumulated in pass 1, sorted by its column 3, the Category text, and each of
its rows has the reference type, the reference id, the patch name and the
category text in columns 0 to 3; the fallback table is a rearrangement of the
rows accumulated in pass 2, sorted by column 0, the patch name; a non-empty
table is printed as sorted. -/
theorem C5_sorted_by_category_and_name (z : Zypper) (pool : ResPool) (engine : QueryEngine) :
    List.Sorted (fun a b : TableRow => (a.getD 3 "").data ≤ (b.getD 3 "").data)
      (list_patches_by_issue z pool engine).t
    ∧ (list_patches_by_issue z pool engine).t.Perm
        ((CliScanIssues z).1.flatMap (list_patches_by_issue.issueRows z pool engine))
    ∧ (∀ row ∈ (list_patches_by_issue z pool engine).t, ∃ (d : RefMatch) (pi : PoolItem),
        row.length = 7 ∧ row.getD 0 "" = d.refType ∧ row.getD 1 "" = d.refId
        ∧ row.getD 2 "" = (pool.asPatch pi).name
        ∧ row.getD 3 "" = patchHighlight z (pool.asPatch pi).category)
    ∧ List.Sorted (fun a b : TableRow => (a.getD 0 "").data ≤ (b.getD 0 "").data)
        (list_patches_by_issue z pool engine).t1
    ∧ (list_patches_by_issue z pool engine).t1.Perm
        (((CliScanIssues z).1.filter list_patches_by_issue.remembered).flatMap
          (list_patches_by_issue.pass2Rows z pool engine))
    ∧ (∀ row ∈ (list_patches_by_issue z pool engine).t1, ∃ pi : PoolItem,
        row.length = 5 ∧ row.getD 0 "" = (pool.asPatch pi).name)
    ∧ ((list_patches_by_issue z pool engine).t = []
        ∨ OutEvent.table (list_patches_by_issue z pool engine).t
            ∈ (list_patches_by_issue z pool engine).out)
    ∧ ((list_patches_by_issue z pool engine).t1 = []
        ∨ OutEvent.table (list_patches_by_issue z pool engine).t1
            ∈ (list_patches_by_issue z pool engine).out) := by
  refine ⟨?_, ?_, ?_, ?_, ?_, ?_, ?_, ?_⟩
  · exact Table.sort_sorted 3 _
  · exact Table.sort_perm 3 _
  · intro row hrow
    obtain ⟨issue, _, hmem⟩ := (list_patches_by_issue.mem_t z pool engine row).mp hrow
    obtain ⟨hit, _, d, _, _, _, _, rfl⟩ :=
      (list_patches_by_issue.mem_issueRows z pool engine issue row).mp hmem
    exact ⟨d, hit.item, by simp⟩
  · exact Table.sort_sorted 0 _
  · exact Table.sort_perm 0 _
  · intro row hrow
    obtain ⟨issue, _, _, hmem⟩ := (list_patches_by_issue.mem_t1 z pool engine row).mp hrow
    obtain ⟨hit, _, _, _, rfl⟩ :=
      (list_patches_by_issue.mem_pass2Rows z pool engine issue row).mp hmem
    exact ⟨hit.item, by simp⟩
  · by_cases h : (list_patches_by_issue z pool engine).t = []
    · exact Or.inl h
    · right
      have hne : (Table.sort 3 ((CliScanIssues z).1.flatMap
          (list_patches_by_issue.issueRows z pool engine))).isEmpty = false := by
        cases hs : Table.sort 3 ((CliScanIssues z).1.flatMap
            (list_patches_by_issue.issueRows z pool engine)) with
        | nil => exact absurd hs h
        | cons a l => rfl
      simp only [list_patches_by_issue, hne]
      simp
  · by_cases h : (list_patches_by_issue z pool engine).t1 = []
    · exact Or.inl h
    · right
      have hne : (Table.sort 0 (((CliScanIssues z).1.filter
          list_patches_by_issue.remembered).flatMap
          (list_patches_by_issue.pass2Rows z pool engine))).isEmpty = false := by
        cases hs : Table.sort 0 (((CliScanIssues z).1.filter
            list_patches_by_issue.remembered).flatMap
            (list_patches_by_issue.pass2Rows z pool engine)) with
        | nil => exact absurd hs h
        | cons a l => rfl
      simp only [list_patches_by_issue, hne]
      simp

/-! ### Update candidates -/

theorem find_updates.mem_scan_foldl (pool : ResPool) (sels : List Selectable)
    (candidates : List PoolItem) (x : PoolItem) :
    x ∈ sels.foldl
        (fun cands sel =>
          match sel.installedObj with
          | none => cands
          | some installed =>
            match sel.highestAvailableVersionObj with
            | none => cands
            | some candidate =>
              if pool.compareByNVRA installed candidate ≥ 0 then cands
              else stdSetInsert PoolItem.lt candidate cands)
        candidates
      ↔ x ∈ candidates ∨ ∃ sel ∈ sels, ∃ installed, sel.installedObj = some installed
          ∧ sel.highestAvailableVersionObj = some x ∧ pool.compareByNVRA installed x < 0 := by
  induction sels generalizing candidates with
  | nil => simp
  | cons sel sels ih =>
    rw [List.foldl_cons, ih]
    simp only [List.mem_cons, exists_eq_or_imp]
    cases hi : sel.installedObj with
    | none => simp
    | some installed =>
      cases hh : sel.highestAvailableVersionObj with
      | none => simp
      | some candidate =>
        by_cases hc : pool.compareByNVRA installed candidate ≥ 0
        · simp only [hc, if_true, Option.some.injEq, exists_eq_left']
          constructor
          · rintro (h | h)
            · exact Or.inl h
            · exact Or.inr (Or.inr h)
          · rintro (h | ⟨h1, h2⟩ | h)
            · exact Or.inl h
            · rw [h1] at hc
              exact absurd h2 (not_lt.mpr hc)
            · exact Or.inr h
        · simp only [hc, if_false, Option.some.injEq, exists_eq_left']
          rw [mem_stdSetInsert (fun a b => PoolItem.eq_of_lt_false)]
          constructor
          · rintro ((h | h) | h)
            · exact Or.inr (Or.inl ⟨h.symm, h ▸ not_le.mp hc⟩)
            · exact Or.inl h
            · exact Or.inr (Or.inr h)
          · rintro (h | ⟨h1, _⟩ | h)
            · exact Or.inl (Or.inr h)
            · exact Or.inl (Or.inl h1.symm)
            · exact Or.inr h

theorem find_updates.mem_plan_foldl (pool : ResPool) (items : List PoolItem)
    (candidates : List PoolItem) (x : PoolItem) :
    x ∈ items.foldl
        (fun cands it =>
          if pool.kind it ≠ ResKind.package then cands
          else if pool.isToBeInstalled it then
            let s := pool.selectableGet (pool.kind it) (pool.name it)
            if s.hasInstalledObj then stdSetInsert PoolItem.lt it cands else cands
          else cands)
        candidates
      ↔ x ∈ candidates ∨ (x ∈ items ∧ pool.kind x = ResKind.package
          ∧ pool.isToBeInstalled x = true
          ∧ (pool.selectableGet (pool.kind x) (pool.name x)).hasInstalledObj = true) := by
  induction items generalizing candidates with
  | nil => simp
  | cons it items ih =>
    rw [List.foldl_cons, ih]
    by_cases hk : pool.kind it = ResKind.package
    · by_cases ht : pool.isToBeInstalled it = true
      · by_cases hs : (pool.selectableGet (pool.kind it) (pool.name it)).hasInstalledObj = true
        · simp only [hk, ne_eq, not_true_eq_false, if_false, ht, if_true]
          rw [hk] at hs
          simp only [hs, if_true]
          rw [mem_stdSetInsert (fun a b => PoolItem.eq_of_lt_false)]
          constructor
          · rintro ((h | h) | ⟨h1, h2⟩)
            · subst h
              exact Or.inr ⟨List.mem_cons_self _ _, hk, ht, by rw [hk]; exact hs⟩
            · exact Or.inl h
            · exact Or.inr ⟨List.mem_cons_of_mem _ h1, h2⟩
          · rintro (h | ⟨h1, h2⟩)
            · exact Or.inl (Or.inr h)
            · rcases List.mem_cons.mp h1 with h1 | h1
              · exact Or.inl (Or.inl h1)
              · exact Or.inr ⟨h1, h2⟩
        · simp only [hk, ne_eq, not_true_eq_false, if_false, ht, if_true]
          rw [hk] at hs
          simp only [hs, Bool.false_eq_true, if_false]
          constructor
          · rintro (h | ⟨h1, h2⟩)
            · exact Or.inl h
            · exact Or.inr ⟨List.mem_cons_of_mem _ h1, h2⟩
          · rintro (h | ⟨h1, h2, h3, h4⟩)
            · exact Or.inl h
            · rcases List.mem_cons.mp h1 with h1 | h1
              · subst h1
                rw [hk] at h4
                exact absurd h4 hs
              · exact Or.inr ⟨h1, h2, h3, h4⟩
      · simp only [hk, ne_eq, not_true_eq_false, if_false, ht, Bool.false_eq_true]
        constructor
        · rintro (h | ⟨h1, h2⟩)
          · exact Or.inl h
          · exact Or.inr ⟨List.mem_cons_of_mem _ h1, h2⟩
        · rintro (h | ⟨h1, h2, h3, h4⟩)
          · exact Or.inl h
          · rcases List.mem_cons.mp h1 with h1 | h1
            · subst h1
              exact absurd h3 ht
            · exact Or.inr ⟨h1, h2, h3, h4⟩
    · simp only [ne_eq, hk, not_false_eq_true, if_true]
      constructor
      · rintro (h | ⟨h1, h2⟩)
        · exact Or.inl h
        · exact Or.inr ⟨List.mem_cons_of_mem _ h1, h2⟩
      · rintro (h | ⟨h1, h2, h3, h4⟩)
        · exact Or.inl h
        · rcases List.mem_cons.mp h1 with h1 | h1
          · subst h1
            exact absurd h2 hk
          · exact Or.inr ⟨h1, h2, h3, h4⟩

/-- C6: for a kind other than package, or with `--all`, `find_updates` adds
exactly the highest available version objects of the selectables of the kind
that have an installed object and whose installed object compares strictly
lower (`compareByNVRA( installed, candidate ) < 0`); the pool is not touched,
and starting from the empty set no returned candidate compares equal or lower
than its installed counterpart. -/
theorem C6_find_updates_scan (z : Zypper) (doUpdate : ResPool → ResPool) (pool : ResPool)
    (kind : ResKind) (candidates : List PoolItem)
    (h : ¬ (kind = ResKind.package ∧ z.cOptsCount "all" = 0)) :
    (∀ x : PoolItem, x ∈ (find_updates z doUpdate pool kind candidates).1
        ↔ x ∈ candidates ∨ ∃ sel ∈ pool.proxyByKind kind, ∃ installed,
            sel.installedObj = some installed ∧ sel.highestAvailableVersionObj = some x
            ∧ pool.compareByNVRA installed x < 0)
    ∧ (find_updates z doUpdate pool kind candidates).2 = pool
    ∧ (∀ x ∈ (find_updates z doUpdate pool kind []).1,
        ∃ sel ∈ pool.proxyByKind kind, ∃ installed,
          sel.hasInstalledObj = true ∧ sel.installedObj = some installed
          ∧ sel.highestAvailableVersionObj = some x
          ∧ pool.compareByNVRA installed x < 0 ∧ ¬ pool.compareByNVRA installed x ≥ 0) := by
  have hmem : ∀ (cands : List PoolItem) (x : PoolItem),
      x ∈ (find_updates z doUpdate pool kind cands).1
        ↔ x ∈ cands ∨ ∃ sel ∈ pool.proxyByKind kind, ∃ installed,
            sel.installedObj = some installed ∧ sel.highestAvailableVersionObj = some x
            ∧ pool.compareByNVRA installed x < 0 := by
    intro cands x
    unfold find_updates
    rw [if_neg h]
    exact find_updates.mem_scan_foldl pool _ cands x
  refine ⟨hmem candidates, by simp [find_updates, h], ?_⟩
  intro x hx
  rcases (hmem [] x).mp hx with hx | ⟨sel, hsel, installed, h1, h2, h3⟩
  · cases hx
  · exact ⟨sel, hsel, installed, by simp [Selectable.hasInstalledObj, h1], h1, h2, h3,
      not_le.mpr h3⟩

/-- C6 (instance): with `--all`, of the packages y (installed 1, available 2,
newer), x (not installed) and w (installed 4, available 5, not newer) exactly
item 2 is returned. -/
theorem C6_find_updates_scan_witness :
    (find_updates zAll doUpdateSelectsXY (packagePool []) ResKind.package []).1 = [2]
    ∧ (2 ∈ (find_updates zAll doUpdateSelectsXY (packagePool []) ResKind.package []).1
        ↔ 2 ∈ ([] : List PoolItem) ∨ ∃ sel ∈ (packagePool []).proxyByKind ResKind.package,
            ∃ installed, sel.installedObj = some installed
              ∧ sel.highestAvailableVersionObj = some 2
              ∧ (packagePool []).compareByNVRA installed 2 < 0) :=
  ⟨by decide,
   (C6_find_updates_scan zAll doUpdateSelectsXY (packagePool []) ResKind.package []
      (by decide)).1 2⟩

/-- C7: for kind package without `--all`, `find_updates` adds exactly the items
of the pool after the resolver's `doUpdate` that are of kind package, are to be
installed, and whose selectable (kind, name) has an installed object; the pool
afterwards is the resolver's.  With a plan selecting x (item 3, not installed)
and y (item 2, installed as item 1) the result is item 2 alone. -/
theorem C7_find_updates_plan (z : Zypper) (doUpdate : ResPool → ResPool) (pool : ResPool)
    (candidates : List PoolItem) (h : z.cOptsCount "all" = 0) :
    (∀ x : PoolItem, x ∈ (find_updates z doUpdate pool ResKind.package candidates).1
        ↔ x ∈ candidates ∨ (x ∈ (doUpdate pool).items
            ∧ (doUpdate pool).kind x = ResKind.package
            ∧ (doUpdate pool).isToBeInstalled x = true
            ∧ ((doUpdate pool).selectableGet ((doUpdate pool).kind x)
                ((doUpdate pool).name x)).hasInstalledObj = true))
    ∧ (find_updates z doUpdate pool ResKind.package candidates).2 = doUpdate pool
    ∧ (doUpdateSelectsXY (packagePool [])).isToBeInstalled 3 = true
    ∧ (doUpdateSelectsXY (packagePool [])).isToBeInstalled 2 = true
    ∧ ((doUpdateSelectsXY (packagePool [])).selectableGet ResKind.package "x").hasInstalledObj
        = false
    ∧ (find_updates zPlain doUpdateSelectsXY (packagePool []) ResKind.package []).1 = [2] := by
  refine ⟨?_, by simp [find_updates, h], by decide, by decide, by decide, by decide⟩
  intro x
  unfold find_updates
  rw [if_pos ⟨rfl, h⟩]
  exact find_updates.mem_plan_foldl (doUpdate pool) _ candidates x

/-- C7 (instance): in the scenario the selected but not installed item 3 is
not a member of the result. -/
theorem C7_find_updates_plan_witness :
    ¬ (3 ∈ (find_updates zPlain doUpdateSelectsXY (packagePool []) ResKind.package []).1) :=
  fun hmem =>
    absurd
      (((C7_find_updates_plan zPlain doUpdateSelectsXY (packagePool []) [] (by decide)).1 3).mp
        hmem)
      (by decide)

/-! ### Marking: the requests made -/

theorem mark_updates_by_issue.issueRequests_append {σ : Type} (sr : SolverRequester σ)
    (issue : Issue) (l1 l2 : List (PoolItem × RefMatch)) (s : σ) :
    mark_updates_by_issue.issueRequests sr issue (l1 ++ l2) s
      = ((mark_updates_by_issue.issueRequests sr issue l1 s).1
          ++ (mark_updates_by_issue.issueRequests sr issue l2
                (mark_updates_by_issue.issueRequests sr issue l1 s).2).1,
         (mark_updates_by_issue.issueRequests sr issue l2
            (mark_updates_by_issue.issueRequests sr issue l1 s).2).2) := by
  induction l1 generalizing s with
  | nil => rfl
  | cons p l1 ih =>
    obtain ⟨pi, d⟩ := p
    have hcons : mark_updates_by_issue.issueRequests sr issue ((pi, d) :: l1 ++ l2) s
        = (⟨issue, pi, d, (sr.installPatch s pi).1⟩
            :: (mark_updates_by_issue.issueRequests sr issue (l1 ++ l2)
                  (sr.installPatch s pi).2).1,
           (mark_updates_by_issue.issueRequests sr issue (l1 ++ l2)
              (sr.installPatch s pi).2).2) := rfl
    rw [hcons, ih]
    rfl

theorem mark_updates_by_issue.issueRequests_map {σ : Type} (sr : SolverRequester σ)
    (issue : Issue) (l : List (PoolItem × RefMatch)) (s : σ) :
    (mark_updates_by_issue.issueRequests sr issue l s).1.map (fun r => (r.item, r.ref)) = l := by
  induction l generalizing s with
  | nil => rfl
  | cons p l ih =>
    obtain ⟨pi, d⟩ := p
    simp only [mark_updates_by_issue.issueRequests, List.map_cons, ih]

theorem mark_updates_by_issue.matchLoop_eq {σ : Type} (sr : SolverRequester σ) (issue : Issue)
    (pi : PoolItem) (ds : List RefMatch) (acc : Bool × MarkState σ) :
    mark_updates_by_issue.matchLoop sr issue pi ds acc
      = (acc.1 || (mark_updates_by_issue.issueRequests sr issue
            ((ds.filter (fun d => !(issue.specificType && d.refType != issue.type))).map
              (fun d => (pi, d))) acc.2.solver).1.any (fun r => r.result),
         { acc.2 with
           solver := (mark_updates_by_issue.issueRequests sr issue
              ((ds.filter (fun d => !(issue.specificType && d.refType != issue.type))).map
                (fun d => (pi, d))) acc.2.solver).2,
           requests := acc.2.requests ++ (mark_updates_by_issue.issueRequests sr issue
              ((ds.filter (fun d => !(issue.specificType && d.refType != issue.type))).map
                (fun d => (pi, d))) acc.2.solver).1 }) := by
  induction ds generalizing acc with
  | nil => simp [mark_updates_by_issue.matchLoop, mark_updates_by_issue.issueRequests]
  | cons d ds ih =>
    have hcons : mark_updates_by_issue.matchLoop sr issue pi (d :: ds) acc
        = mark_updates_by_issue.matchLoop sr issue pi ds
            (if (issue.specificType && d.refType != issue.type) = true then acc
             else
              (if (sr.installPatch acc.2.solver pi).1 then true else acc.1,
               { acc.2 with solver := (sr.installPatch acc.2.solver pi).2,
                            requests := acc.2.requests
                              ++ [⟨issue, pi, d, (sr.installPatch acc.2.solver pi).1⟩] })) := rfl
    rw [hcons, ih]
    by_cases hskip : (issue.specificType && d.refType != issue.type) = true
    · have hf := @List.filter_cons_of_neg RefMatch
        (fun d => !(issue.specificType && d.refType != issue.type)) d ds (by simp [hskip])
      rw [hf, if_pos hskip]
    · have hkeep : (!(issue.specificType && d.refType != issue.type)) = true := by
        cases h : (issue.specificType && d.refType != issue.type)
        · rfl
        · exact absurd h hskip
      have hf := @List.filter_cons_of_pos RefMatch
        (fun d => !(issue.specificType && d.refType != issue.type)) d ds hkeep
      rw [hf, if_neg hskip]
      simp only [List.map_cons, mark_updates_by_issue.issueRequests, List.any_cons,
        List.append_assoc, List.singleton_append]
      cases (sr.installPatch acc.2.solver pi).1 <;> simp

theorem mark_updates_by_issue.acceptedMatches_cons (pool : ResPool) (issue : Issue)
    (hit : QueryHit) (hits : List QueryHit) :
    mark_updates_by_issue.acceptedMatches pool issue (hit :: hits)
      = (if pool.isBroken hit.item then
          (hit.matchList.filter
            (fun d => !(issue.specificType && d.refType != issue.type))).map
            (fun d => (hit.item, d))
         else [])
        ++ mark_updates_by_issue.acceptedMatches pool issue hits := by
  simp [mark_updates_by_issue.acceptedMatches]

theorem mark_updates_by_issue.hitLoop_eq {σ : Type} (pool : ResPool) (sr : SolverRequester σ)
    (issue : Issue) (hits : List QueryHit) (acc : Bool × MarkState σ) :
    mark_updates_by_issue.hitLoop pool sr issue hits acc
      = (acc.1 || (mark_updates_by_issue.issueRequests sr issue
            (mark_updates_by_issue.acceptedMatches pool issue hits) acc.2.solver).1.any
              (fun r => r.result),
         { acc.2 with
           solver := (mark_updates_by_issue.issueRequests sr issue
              (mark_updates_by_issue.acceptedMatches pool issue hits) acc.2.solver).2,
           requests := acc.2.requests ++ (mark_updates_by_issue.issueRequests sr issue
              (mark_updates_by_issue.acceptedMatches pool issue hits) acc.2.solver).1 }) := by
  induction hits generalizing acc with
  | nil =>
    simp [mark_updates_by_issue.hitLoop, mark_updates_by_issue.acceptedMatches,
      mark_updates_by_issue.issueRequests]
  | cons hit hits ih =>
    have hcons : mark_updates_by_issue.hitLoop pool sr issue (hit :: hits) acc
        = mark_updates_by_issue.hitLoop pool sr issue hits
            (if (!pool.isBroken hit.item) = true then acc
             else mark_updates_by_issue.matchLoop sr issue hit.item hit.matchList acc) := rfl
    rw [hcons, ih, mark_updates_by_issue.acceptedMatches_cons]
    cases hb : pool.isBroken hit.item
    · simp
    · simp only [Bool.not_true, Bool.false_eq_true, if_false, if_true,
        mark_updates_by_issue.matchLoop_eq, mark_updates_by_issue.issueRequests_append,
        List.any_append, Bool.or_assoc, List.append_assoc]

theorem mark_updates_by_issue.step_eq {σ : Type} (z : Zypper) (pool : ResPool)
    (engine : QueryEngine) (sr : SolverRequester σ) (issue : Issue) (st : MarkState σ) :
    (mark_updates_by_issue.step z pool engine sr issue st).1
        = (mark_updates_by_issue.issueRequests sr issue
            (mark_updates_by_issue.acceptedMatches pool issue
              (engine (mark_updates_by_issue.issueQuery issue)))
            (sr.create st.solver)).1.any (fun r => r.result)
    ∧ (mark_updates_by_issue.step z pool engine sr issue st).2.solver
        = (mark_updates_by_issue.issueRequests sr issue
            (mark_updates_by_issue.acceptedMatches pool issue
              (engine (mark_updates_by_issue.issueQuery issue)))
            (sr.create st.solver)).2
    ∧ (mark_updates_by_issue.step z pool engine sr issue st).2.requests
        = st.requests ++ (mark_updates_by_issue.issueRequests sr issue
            (mark_updates_by_issue.acceptedMatches pool issue
              (engine (mark_updates_by_issue.issueQuery issue)))
            (sr.create st.solver)).1 := by
  unfold mark_updates_by_issue.step
  simp only [mark_updates_by_issue.hitLoop_eq, Bool.false_or]
  rcases Bool.eq_false_or_eq_true ((mark_updates_by_issue.issueRequests sr issue
      (mark_updates_by_issue.acceptedMatches pool issue
        (engine (mark_updates_by_issue.issueQuery issue)))
      (sr.create st.solver)).1.any (fun r => r.result)) with h | h
  · simp [h]
  · simp [h]

theorem mark_updates_by_issue.newRequests_eq {σ : Type} (z : Zypper) (pool : ResPool)
    (engine : QueryEngine) (sr : SolverRequester σ) (issue : Issue) (st : MarkState σ) :
    mark_updates_by_issue.newRequests st (mark_updates_by_issue.step z pool engine sr issue st).2
      = (mark_updates_by_issue.issueRequests sr issue
          (mark_updates_by_issue.acceptedMatches pool issue
            (engine (mark_updates_by_issue.issueQuery issue)))
          (sr.create st.solver)).1 := by
  unfold mark_updates_by_issue.newRequests
  rw [(mark_updates_by_issue.step_eq z pool engine sr issue st).2.2, List.drop_left]

theorem mark_updates_by_issue.issueRequests_mem_of_split {σ : Type} (sr : SolverRequester σ)
    (issue : Issue) (pre post : List (PoolItem × RefMatch)) (pi : PoolItem) (d : RefMatch)
    (s : σ) :
    (⟨issue, pi, d,
        (sr.installPatch (mark_updates_by_issue.issueRequests sr issue pre s).2 pi).1⟩ :
        InstallRequest)
      ∈ (mark_updates_by_issue.issueRequests sr issue (pre ++ (pi, d) :: post) s).1 := by
  rw [mark_updates_by_issue.issueRequests_append]
  apply List.mem_append_right
  exact List.mem_cons_self _ _

theorem mark_updates_by_issue.issueRequests_any_iff {σ : Type} (sr : SolverRequester σ)
    (issue : Issue) (l : List (PoolItem × RefMatch)) (s : σ) :
    (mark_updates_by_issue.issueRequests sr issue l s).1.any (fun r => r.result) = true
      ↔ ∃ (pre : List (PoolItem × RefMatch)) (pi : PoolItem) (d : RefMatch)
          (post : List (PoolItem × RefMatch)),
          l = pre ++ (pi, d) :: post
          ∧ (sr.installPatch (mark_updates_by_issue.issueRequests sr issue pre s).2 pi).1
              = true := by
  constructor
  · intro h
    obtain ⟨req, hreq, hres⟩ := List.any_eq_true.mp h
    clear h
    induction l generalizing s with
    | nil => cases hreq
    | cons p l ih =>
      obtain ⟨pi0, d0⟩ := p
      have hcons : (mark_updates_by_issue.issueRequests sr issue ((pi0, d0) :: l) s).1
          = ⟨issue, pi0, d0, (sr.installPatch s pi0).1⟩
            :: (mark_updates_by_issue.issueRequests sr issue l (sr.installPatch s pi0).2).1 :=
        rfl
      rw [hcons] at hreq
      rcases List.mem_cons.mp hreq with hreq | hreq
      · refine ⟨[], pi0, d0, l, rfl, ?_⟩
        rw [hreq] at hres
        exact hres
      · obtain ⟨pre, pi, d, post, hl, hcall⟩ := ih (sr.installPatch s pi0).2 hreq
        exact ⟨(pi0, d0) :: pre, pi, d, post, by rw [hl]; rfl, hcall⟩
  · rintro ⟨pre, pi, d, post, hl, hcall⟩
    rw [hl]
    exact List.any_eq_true.mpr
      ⟨_, mark_updates_by_issue.issueRequests_mem_of_split sr issue pre post pi d s, hcall⟩

/-! ### Marking -/

/-- C9: marking mode tests only "broken".  The accepted matches are the matches
that pass the type check of the hits whose item is broken, locked or not;
`sr.installPatch` is called exactly once for each of them, in order, each call
on the resolver state the previous one left, and the resolver ends in the state
the last call left, so no call is made for an item that is not broken.  A call
that returns success makes the outcome Found.  For (bugzilla, "12345") and a
single broken and locked patch (status Locked) the call is made: a granting
requester ends holding the patch and the outcome is Found; for the same patch
applied no call is made and the resolver is left as it was. -/
theorem C9_marking_tests_only_broken {σ : Type} (z : Zypper) (pool : ResPool)
    (engine : QueryEngine) (sr : SolverRequester σ) (issue : Issue) (st : MarkState σ) :
    (∀ (pi : PoolItem) (d : RefMatch),
        (pi, d) ∈ mark_updates_by_issue.acceptedMatches pool issue
            (engine (mark_updates_by_issue.issueQuery issue))
          ↔ ∃ hit ∈ engine (mark_updates_by_issue.issueQuery issue),
              hit.item = pi ∧ pool.isBroken pi = true ∧ d ∈ hit.matchList
              ∧ (issue.specificType = true → d.refType = issue.type))
    ∧ mark_updates_by_issue.newRequests st
        (mark_updates_by_issue.step z pool engine sr issue st).2
      = (mark_updates_by_issue.issueRequests sr issue
          (mark_updates_by_issue.acceptedMatches pool issue
            (engine (mark_updates_by_issue.issueQuery issue)))
          (sr.create st.solver)).1
    ∧ (mark_updates_by_issue.step z pool engine sr issue st).2.solver
      = (mark_updates_by_issue.issueRequests sr issue
          (mark_updates_by_issue.acceptedMatches pool issue
            (engine (mark_updates_by_issue.issueQuery issue)))
          (sr.create st.solver)).2
    ∧ (mark_updates_by_issue.newRequests st
          (mark_updates_by_issue.step z pool engine sr issue st).2).map (fun r => (r.item, r.ref))
        = mark_updates_by_issue.acceptedMatches pool issue
            (engine (mark_updates_by_issue.issueQuery issue))
    ∧ (∀ (pre : List (PoolItem × RefMatch)) (pi : PoolItem) (d : RefMatch)
        (post : List (PoolItem × RefMatch)),
        mark_updates_by_issue.acceptedMatches pool issue
            (engine (mark_updates_by_issue.issueQuery issue))
          = pre ++ (pi, d) :: post →
        (⟨issue, pi, d, (sr.installPatch
            (mark_updates_by_issue.issueRequests sr issue pre (sr.create st.solver)).2
            pi).1⟩ : InstallRequest)
          ∈ mark_updates_by_issue.newRequests st
              (mark_updates_by_issue.step z pool engine sr issue st).2
        ∧ ((sr.installPatch
              (mark_updates_by_issue.issueRequests sr issue pre (sr.create st.solver)).2
              pi).1 = true
            → (mark_updates_by_issue.step z pool engine sr issue st).1 = true))
    ∧ (∀ hit ∈ engine (mark_updates_by_issue.issueQuery issue), ∀ d ∈ hit.matchList,
        pool.isBroken hit.item = true →
        (issue.specificType = true → d.refType = issue.type) →
        ∃ req ∈ mark_updates_by_issue.newRequests st
            (mark_updates_by_issue.step z pool engine sr issue st).2,
          req.item = hit.item ∧ req.ref = d)
    ∧ (∀ req ∈ mark_updates_by_issue.newRequests st
          (mark_updates_by_issue.step z pool engine sr issue st).2,
        pool.isBroken req.item = true)
    ∧ (∀ req ∈ mark_updates_by_issue.newRequests st
          (mark_updates_by_issue.step z pool engine sr issue st).2,
        req.result = true → (mark_updates_by_issue.step z pool engine sr issue st).1 = true)
    ∧ (poolScenarioC.isBroken 0 = true ∧ poolScenarioC.isUnwanted 0 = true
        ∧ specClassify (poolScenarioC.validate 0) (poolScenarioC.isUnwanted 0) = Status.Locked
        ∧ patchIsApplicable poolScenarioC 0 = false)
    ∧ ((mark_updates_by_issue.step zBugzilla12345 poolScenarioC (queryPatches poolScenarioC)
          srAlwaysMarks ⟨"bugzilla", "12345"⟩ markStart).1 = true
        ∧ (mark_updates_by_issue zBugzilla12345 poolScenarioC (queryPatches poolScenarioC)
            srAlwaysMarks markStart).requests
          = [⟨⟨"bugzilla", "12345"⟩, 0, ⟨"bugzilla", "12345"⟩, true⟩]
        ∧ (mark_updates_by_issue zBugzilla12345 poolScenarioC (queryPatches poolScenarioC)
            srAlwaysMarks markStart).solver = [0]
        ∧ (mark_updates_by_issue zBugzilla12345 poolScenarioC (queryPatches poolScenarioC)
            srAlwaysMarks markStart).exitCode = 0
        ∧ (mark_updates_by_issue zBugzilla12345 poolScenarioC (queryPatches poolScenarioC)
            srAlwaysMarks markStart).out = [])
    ∧ ((mark_updates_by_issue zBugzilla12345 poolScenarioCApplied
          (queryPatches poolScenarioCApplied) srAlwaysMarks markStart).requests = []
        ∧ (mark_updates_by_issue zBugzilla12345 poolScenarioCApplied
            (queryPatches poolScenarioCApplied) srAlwaysMarks markStart).solver = []) := by
  obtain ⟨hmap, hfound, _⟩ := mark_updates_by_issue.newRequests_step z pool engine sr issue st
  obtain ⟨efound, esolver, _⟩ := mark_updates_by_issue.step_eq z pool engine sr issue st
  have enew := mark_updates_by_issue.newRequests_eq z pool engine sr issue st
  refine ⟨mark_updates_by_issue.mem_acceptedMatches pool issue _, enew, esolver, hmap, ?_,
    ?_, ?_, ?_, by decide, by decide, by decide⟩
  · intro pre pi d post hsplit
    constructor
    · rw [enew, hsplit]
      exact mark_updates_by_issue.issueRequests_mem_of_split sr issue pre post pi d _
    · intro hcall
      rw [efound]
      exact (mark_updates_by_issue.issueRequests_any_iff sr issue _ _).mpr
        ⟨pre, pi, d, post, hsplit, hcall⟩
  · intro hit hhit d hd hb hok
    have hmem : (hit.item, d) ∈ mark_updates_by_issue.acceptedMatches pool issue
        (engine (mark_updates_by_issue.issueQuery issue)) :=
      (mark_updates_by_issue.mem_acceptedMatches pool issue _ hit.item d).mpr
        ⟨hit, hhit, rfl, hb, hd, hok⟩
    rw [← hmap] at hmem
    obtain ⟨req, hreq, heq⟩ := List.mem_map.mp hmem
    simp only [Prod.mk.injEq] at heq
    exact ⟨req, hreq, heq.1, heq.2⟩
  · intro req hreq
    have hmem : (req.item, req.ref) ∈ mark_updates_by_issue.acceptedMatches pool issue
        (engine (mark_updates_by_issue.issueQuery issue)) := by
      rw [← hmap]
      exact List.mem_map.mpr ⟨req, hreq, rfl⟩
    obtain ⟨_, _, _, hb, _, _⟩ :=
      (mark_updates_by_issue.mem_acceptedMatches pool issue _ req.item req.ref).mp hmem
    exact hb
  · intro req hreq hres
    rw [hfound, List.any_eq_true]
    exact ⟨req, hreq, hres⟩

/-- C10: starting from an exit code that is not yet the sentinel, for every
sequence of issues (so for every processing order) the exit code after the run
is `ZYPPER_EXIT_INF_CAP_NOT_FOUND` exactly when some issue ended NotFound, and
is the start value otherwise; once the sentinel is set after a prefix of the
issues it is still set after every longer run; the same holds for
`mark_updates_by_issue` on the issues of the command line. -/
theorem C10_sentinel_monotonic {σ : Type} (z : Zypper) (pool : ResPool) (engine : QueryEngine)
    (sr : SolverRequester σ) (issues : List Issue) (st : MarkState σ)
    (h : st.exitCode ≠ z.ZYPPER_EXIT_INF_CAP_NOT_FOUND) :
    ((mark_updates_by_issue.run z pool engine sr issues st).exitCode
          = z.ZYPPER_EXIT_INF_CAP_NOT_FOUND
        ↔ ∃ o ∈ mark_updates_by_issue.outcomes z pool engine sr issues st, o.2 = false)
    ∧ ((mark_updates_by_issue.run z pool engine sr issues st).exitCode
          = z.ZYPPER_EXIT_INF_CAP_NOT_FOUND
        ∨ (mark_updates_by_issue.run z pool engine sr issues st).exitCode = st.exitCode)
    ∧ (mark_updates_by_issue.outcomes z pool engine sr issues st).map (fun o => o.1) = issues
    ∧ (∀ pre post : List Issue, issues = pre ++ post →
        (mark_updates_by_issue.run z pool engine sr pre st).exitCode
          = z.ZYPPER_EXIT_INF_CAP_NOT_FOUND →
        (mark_updates_by_issue.run z pool engine sr issues st).exitCode
          = z.ZYPPER_EXIT_INF_CAP_NOT_FOUND)
    ∧ ((mark_updates_by_issue z pool engine sr st).exitCode = z.ZYPPER_EXIT_INF_CAP_NOT_FOUND
        ↔ ∃ o ∈ mark_updates_by_issue.outcomes z pool engine sr (CliScanIssues z).1
              { st with out := st.out ++ (CliScanIssues z).2 }, o.2 = false) := by
  have key : ∀ (l : List Issue) (s : MarkState σ),
      s.exitCode ≠ z.ZYPPER_EXIT_INF_CAP_NOT_FOUND →
      ((mark_updates_by_issue.run z pool engine sr l s).exitCode
          = z.ZYPPER_EXIT_INF_CAP_NOT_FOUND
        ↔ ∃ o ∈ mark_updates_by_issue.outcomes z pool engine sr l s, o.2 = false) := by
    intro l s hs
    rw [mark_updates_by_issue.run_exitCode]
    by_cases hany : (mark_updates_by_issue.outcomes z pool engine sr l s).any (fun o => !o.2)
        = true
    · simp only [hany, if_true, true_iff]
      obtain ⟨o, ho, hf⟩ := List.any_eq_true.mp hany
      exact ⟨o, ho, by simpa using hf⟩
    · simp only [hany, Bool.false_eq_true, if_false]
      constructor
      · intro he
        exact absurd he hs
      · rintro ⟨o, ho, hf⟩
        exact absurd (List.any_eq_true.mpr ⟨o, ho, by simp [hf]⟩) hany
  refine ⟨key issues st h, ?_, mark_updates_by_issue.outcomes_issues z pool engine sr issues st,
    ?_, ?_⟩
  · rw [mark_updates_by_issue.run_exitCode]
    split
    · exact Or.inl rfl
    · exact Or.inr rfl
  · intro pre post hsplit hpre
    have happ : mark_updates_by_issue.run z pool engine sr (pre ++ post) st
        = mark_updates_by_issue.run z pool engine sr post
            (mark_updates_by_issue.run z pool engine sr pre st) := by
      simp [mark_updates_by_issue.run, List.foldl_append]
    rw [hsplit, happ, mark_updates_by_issue.run_exitCode, hpre]
    split <;> rfl
  · exact key (CliScanIssues z).1 { st with out := st.out ++ (CliScanIssues z).2 } h

/-- C10 (instance): with `--bugzilla=999 --cve=CVE-2024-0001` on scenario A the
first issue ends NotFound and the second Found, and the exit code after the run
is the sentinel 104. -/
theorem C10_sentinel_monotonic_witness :
    mark_updates_by_issue.outcomes zBugzilla999Cve poolScenarioA (queryPatches poolScenarioA)
        srAlwaysMarks (CliScanIssues zBugzilla999Cve).1 markStart
      = [(⟨"bugzilla", "999"⟩, false), (⟨"cve", "CVE-2024-0001"⟩, true)]
    ∧ (mark_updates_by_issue.run zBugzilla999Cve poolScenarioA (queryPatches poolScenarioA)
        srAlwaysMarks (CliScanIssues zBugzilla999Cve).1 markStart).exitCode = 104 :=
  ⟨by decide,
   ((C10_sentinel_monotonic zBugzilla999Cve poolScenarioA (queryPatches poolScenarioA)
      srAlwaysMarks (CliScanIssues zBugzilla999Cve).1 markStart (by decide)).1).mpr
     ⟨(⟨"bugzilla", "999"⟩, false), by decide, rfl⟩⟩

/-! ### The reference query engine -/

theorem queryValueMatches_substring (q : PoolQuery) (value text : String)
    (hexact : q.matchExact = false) (hcase : q.caseSensitive = false)
    (hvalue : value.isEmpty = false) :
    queryValueMatches q value text = containsCI value text := by
  simp [queryValueMatches, containsCI, hexact, hcase, hvalue]

theorem queryPatches_hit_of_text (pool : ResPool) (q : PoolQuery) (pi : PoolItem)
    (hpi : pi ∈ pool.items) (hkind : q.kinds.contains (pool.kind pi) = true)
    (htext : q.attributes.any (fun av =>
      match av.1 with
      | .summary => queryValueMatches q av.2 (pool.asPatch pi).summary
      | .description => queryValueMatches q av.2 (pool.asPatch pi).description
      | _ => false) = true) :
    ∃ hit ∈ queryPatches pool q, hit.item = pi := by
  unfold queryPatches
  simp only [List.mem_filterMap, List.mem_filter]
  refine ⟨?hit, ⟨pi, ⟨hpi, hkind⟩, ?h1⟩, ?h2⟩
  case h1 =>
    rw [if_neg (by simp [htext])]
    exact rfl
  case h2 => rfl

/-! ### Listing: pass 2 -/

theorem list_patches_by_issue.remembered_iff (issue : Issue) :
    list_patches_by_issue.remembered issue = true
      ↔ issue.anyType = true ∧ issue.specificId = true := by
  unfold list_patches_by_issue.remembered Issue.specificType
  cases issue.anyType <;> cases issue.anyId <;> simp [Issue.specificId]

theorem list_patches_by_issue.mem_pass2 (z : Zypper) (pool : ResPool) (engine : QueryEngine)
    (issue : Issue) :
    issue ∈ (list_patches_by_issue z pool engine).pass2
      ↔ issue ∈ (CliScanIssues z).1 ∧ issue.anyType = true ∧ issue.specificId = true := by
  unfold list_patches_by_issue
  simp only [List.mem_filter, list_patches_by_issue.remembered_iff]

theorem list_patches_by_issue.t1_row_of_hit (z : Zypper) (pool : ResPool)
    (engine : QueryEngine) (issue : Issue)
    (hissue : issue ∈ (list_patches_by_issue z pool engine).pass2) (hit : QueryHit)
    (hhit : hit ∈ engine (list_patches_by_issue.pass2Query issue))
    (hneed : z.cOptsCount "all" = 0 → patchIsApplicable pool hit.item = true)
    (hcli : z.cliMatchPatch (pool.asPatch hit.item) = true) :
    [(pool.asPatch hit.item).name, patchHighlight z (pool.asPatch hit.item).category,
      patchHighlight z (pool.asPatch hit.item).severity,
      interactiveFlags z (pool.asPatch hit.item), (pool.asPatch hit.item).summary]
      ∈ (list_patches_by_issue z pool engine).t1 := by
  obtain ⟨hmem, hany, hid⟩ := (list_patches_by_issue.mem_pass2 z pool engine issue).mp hissue
  refine (list_patches_by_issue.mem_t1 z pool engine _).mpr
    ⟨issue, hmem, (list_patches_by_issue.remembered_iff issue).mpr ⟨hany, hid⟩, ?_⟩
  exact (list_patches_by_issue.mem_pass2Rows z pool engine issue _).mpr
    ⟨hit, hhit, hneed, hcli, rfl⟩

/-- C11: an issue is remembered for pass 2 exactly when its type is wildcard
and its id is specific; the pass-2 query asks for the id as a case-insensitive
substring of the summary or the description of patches; every hit of that query
that passes the applicability filter (unless `--all`) and the CLI filter gets a
row in the fallback table, so with the reference query engine every such patch
of the pool whose summary or description contains the id gets one.  For
`--issues=99999` and a patch that only references cve/CVE-2024-0001 but
mentions 99999 in its description, the authoritative table is empty and the
fallback table holds the row of that patch. -/
theorem C11_pass2_fallback (z : Zypper) (pool : ResPool) (engine : QueryEngine) :
    (∀ issue : Issue, list_patches_by_issue.remembered issue = true
        ↔ issue.anyType = true ∧ issue.specificId = true)
    ∧ (∀ issue : Issue, issue ∈ (list_patches_by_issue z pool engine).pass2
        ↔ issue ∈ (CliScanIssues z).1 ∧ issue.anyType = true ∧ issue.specificId = true)
    ∧ (∀ issue : Issue, list_patches_by_issue.pass2Query issue
        = ⟨false, false, [ResKind.patch],
            [(SolvAttr.summary, issue.id), (SolvAttr.description, issue.id)]⟩)
    ∧ (∀ issue ∈ (list_patches_by_issue z pool engine).pass2,
        ∀ hit ∈ engine (list_patches_by_issue.pass2Query issue),
          (z.cOptsCount "all" = 0 → patchIsApplicable pool hit.item = true) →
          z.cliMatchPatch (pool.asPatch hit.item) = true →
          [(pool.asPatch hit.item).name, patchHighlight z (pool.asPatch hit.item).category,
            patchHighlight z (pool.asPatch hit.item).severity,
            interactiveFlags z (pool.asPatch hit.item), (pool.asPatch hit.item).summary]
            ∈ (list_patches_by_issue z pool engine).t1)
    ∧ (∀ issue ∈ (list_patches_by_issue z pool (queryPatches pool)).pass2,
        ∀ pi ∈ pool.items, pool.kind pi = ResKind.patch →
          (containsCI issue.id (pool.asPatch pi).summary = true
            ∨ containsCI issue.id (pool.asPatch pi).description = true) →
          (z.cOptsCount "all" = 0 → patchIsApplicable pool pi = true) →
          z.cliMatchPatch (pool.asPatch pi) = true →
          [(pool.asPatch pi).name, patchHighlight z (pool.asPatch pi).category,
            patchHighlight z (pool.asPatch pi).severity,
            interactiveFlags z (pool.asPatch pi), (pool.asPatch pi).summary]
            ∈ (list_patches_by_issue z pool (queryPatches pool)).t1)
    ∧ ((poolScenarioB.asPatch 0).references = [("cve", "CVE-2024-0001")]
        ∧ containsCI "99999" "cve" = false ∧ containsCI "99999" "CVE-2024-0001" = false
        ∧ containsCI "99999" (poolScenarioB.asPatch 0).description = true
        ∧ (CliScanIssues zIssues99999).1 = [⟨"", "99999"⟩]
        ∧ (list_patches_by_issue zIssues99999 poolScenarioB (queryPatches poolScenarioB)).t = []
        ∧ (list_patches_by_issue zIssues99999 poolScenarioB (queryPatches poolScenarioB)).t1
            = [["patch-d", "recommended", "moderate", "---", "summary of patch-d"]]) := by
  refine ⟨list_patches_by_issue.remembered_iff, list_patches_by_issue.mem_pass2 z pool engine,
    fun _ => rfl, ?_, ?_, by decide⟩
  · intro issue hissue hit hhit hneed hcli
    exact list_patches_by_issue.t1_row_of_hit z pool engine issue hissue hit hhit hneed hcli
  · intro issue hissue pi hpi hkind htext hneed hcli
    have hid : issue.id.isEmpty = false := by
      have h := ((list_patches_by_issue.mem_pass2 z pool _ issue).mp hissue).2.2
      simpa [Issue.specificId, Issue.anyId] using h
    have hq : ∀ text : String,
        queryValueMatches (list_patches_by_issue.pass2Query issue) issue.id text
          = containsCI issue.id text :=
      fun text => queryValueMatches_substring _ _ _ rfl rfl hid
    obtain ⟨hit, hhit, hitem⟩ := queryPatches_hit_of_text pool
      (list_patches_by_issue.pass2Query issue) pi hpi (by
        rw [hkind]
        show [ResKind.patch].contains ResKind.patch = true
        decide) (by
        show ([(SolvAttr.summary, issue.id), (SolvAttr.description, issue.id)].any _) = true
        simp only [List.any_cons, List.any_nil, Bool.or_false, hq, Bool.or_eq_true]
        exact htext)
    subst hitem
    exact list_patches_by_issue.t1_row_of_hit z pool _ issue hissue hit hhit hneed hcli

/-! ### Update candidates by branch -/

/-- C12 as stated fails on the resolver-plan path: when the plan selects item
5 of package w, whose installed counterpart is item 4 and which does not
compare higher (`compareByNVRA( 4, 5 )` is 0), `find_updates` for kind package
without `--all` returns item 5. -/
theorem C12_plan_path_counterexample :
    (find_updates zPlain doUpdateSelectsW (packagePool []) ResKind.package []).1 = [5]
    ∧ ((packagePool []).selectableGet ResKind.package ((packagePool []).name 5)).installedObj
        = some 4
    ∧ (packagePool []).compareByNVRA 4 5 = 0
    ∧ ¬ ((packagePool []).compareByNVRA 4 5 < 0) := by
  decide

/-- C12 (amended): every candidate that `find_updates` puts into an empty set
either comes from the scan branch (kind other than package, or `--all`) and is
the highest available object of a selectable whose installed object compares
strictly lower, or comes from the resolver-plan branch (kind package, no
`--all`) and is a package item that the plan marks for installation and whose
selectable has an installed object; the plan branch never reads
`compareByNVRA`. -/
theorem C12_candidates_by_branch (z : Zypper) (doUpdate : ResPool → ResPool) (pool : ResPool)
    (kind : ResKind) :
    (∀ x ∈ (find_updates z doUpdate pool kind []).1,
        (¬ (kind = ResKind.package ∧ z.cOptsCount "all" = 0)
          ∧ ∃ sel ∈ pool.proxyByKind kind, ∃ installed,
              sel.installedObj = some installed ∧ sel.highestAvailableVersionObj = some x
              ∧ pool.compareByNVRA installed x < 0)
        ∨ ((kind = ResKind.package ∧ z.cOptsCount "all" = 0)
          ∧ x ∈ (doUpdate pool).items
          ∧ (doUpdate pool).kind x = ResKind.package
          ∧ (doUpdate pool).isToBeInstalled x = true
          ∧ ((doUpdate pool).selectableGet ((doUpdate pool).kind x)
              ((doUpdate pool).name x)).hasInstalledObj = true))
    ∧ (∀ (cmp : PoolItem → PoolItem → Int) (candidates : List PoolItem),
        find_updates.planLoop { pool with compareByNVRA := cmp } candidates
          = find_updates.planLoop pool candidates) := by
  refine ⟨?_, fun _ _ => rfl⟩
  intro x hx
  by_cases h : kind = ResKind.package ∧ z.cOptsCount "all" = 0
  · right
    unfold find_updates at hx
    rw [if_pos h] at hx
    rcases (find_updates.mem_plan_foldl (doUpdate pool) _ [] x).mp hx with hx | hx
    · cases hx
    · exact ⟨h, hx⟩
  · left
    unfold find_updates at hx
    rw [if_neg h] at hx
    rcases (find_updates.mem_scan_foldl pool _ [] x).mp hx with hx | hx
    · cases hx
    · exact ⟨h, hx⟩

/-! ### Listing: what the rows match -/

theorem queryPatches_matchesSatisfyQuery (pool : ResPool) :
    matchesSatisfyQuery (queryPatches pool) := by
  intro q hit hhit d hd
  unfold queryPatches at hhit
  simp only [List.mem_filterMap, List.mem_filter] at hhit
  obtain ⟨pi, _, hsome⟩ := hhit
  split at hsome
  · cases hsome
  · simp only [Option.some.injEq] at hsome
    subst hsome
    simp only [List.mem_map, List.mem_filter] at hd
    obtain ⟨r, ⟨_, hany⟩, rfl⟩ := hd
    obtain ⟨av, hav, hmatch⟩ := List.any_eq_true.mp hany
    refine ⟨av, hav, ?_⟩
    cases hattr : av.1 with
    | updateReferenceType =>
      rw [hattr] at hmatch
      exact Or.inl ⟨rfl, hmatch⟩
    | updateReferenceId =>
      rw [hattr] at hmatch
      exact Or.inr ⟨rfl, hmatch⟩
    | summary =>
      rw [hattr] at hmatch
      cases hmatch
    | description =>
      rw [hattr] at hmatch
      cases hmatch

theorem list_patches_by_issue.issueQuery_specificId (issue : Issue)
    (hid : issue.specificId = true) :
    (list_patches_by_issue.issueQuery issue).matchExact = false
    ∧ (list_patches_by_issue.issueQuery issue).caseSensitive = false
    ∧ (list_patches_by_issue.issueQuery issue).attributes
        = (if issue.anyType then
            [(SolvAttr.updateReferenceId, issue.id), (SolvAttr.updateReferenceType, issue.id)]
           else [(SolvAttr.updateReferenceId, issue.id)]) := by
  have hany : issue.anyId = false := by simpa [Issue.specificId] using hid
  unfold list_patches_by_issue.issueQuery
  simp only [hany, hid, Bool.and_false, Bool.false_eq_true, if_false, Bool.and_true]
  cases issue.anyType <;> exact ⟨rfl, rfl, rfl⟩

/-- C13 as stated fails: for `--issues=bugzilla` (wildcard type, specific id
"bugzilla") the reference entry bugzilla/99999 is matched only because its type
contains the id string, and its row is kept although its refId 99999 does not
contain "bugzilla". -/
theorem C13_type_match_counterexample :
    Issue.specificId ⟨"", "bugzilla"⟩ = true
    ∧ (CliScanIssues zIssuesBugzilla).1 = [⟨"", "bugzilla"⟩]
    ∧ list_patches_by_issue.issueRows zIssuesBugzilla poolScenarioA (queryPatches poolScenarioA)
        ⟨"", "bugzilla"⟩
        = [["bugzilla", "99999", "patch-a", "security", "moderate", "---", "needed"]]
    ∧ containsCI "bugzilla" "99999" = false
    ∧ (list_patches_by_issue zIssuesBugzilla poolScenarioA (queryPatches poolScenarioA)).t
        = [["bugzilla", "99999", "patch-a", "security", "moderate", "---", "needed"]] := by
  decide

/-- C13 (amended): let the query engine return as matches only reference
entries that satisfy an attribute of the query, and let the issue have a
specific id.  If its type is specific, every row emitted for it has a refId
that contains the id (case-insensitive substring) and has the issue's type.  If
its type is wildcard, every row emitted for it has a refId or a refType that
contains the id: an entry matched through its refType alone is kept. -/
theorem C13_rows_match_id_or_type (z : Zypper) (pool : ResPool) (engine : QueryEngine)
    (hsound : matchesSatisfyQuery engine) (issue : Issue) (hid : issue.specificId = true) :
    (issue.specificType = true →
      ∀ row ∈ list_patches_by_issue.issueRows z pool engine issue,
        containsCI issue.id (row.getD 1 "") = true ∧ row.getD 0 "" = issue.type)
    ∧ (issue.anyType = true →
      ∀ row ∈ list_patches_by_issue.issueRows z pool engine issue,
        containsCI issue.id (row.getD 1 "") = true
        ∨ containsCI issue.id (row.getD 0 "") = true) := by
  obtain ⟨hexact, hcase, hattrs⟩ := list_patches_by_issue.issueQuery_specificId issue hid
  have hempty : issue.id.isEmpty = false := by
    simpa [Issue.specificId, Issue.anyId] using hid
  have hq : ∀ text : String,
      queryValueMatches (list_patches_by_issue.issueQuery issue) issue.id text
        = containsCI issue.id text :=
    fun text => queryValueMatches_substring _ _ _ hexact hcase hempty
  constructor
  · intro hspec row hrow
    obtain ⟨hit, hhit, d, hd, _, _, hok, rfl⟩ :=
      (list_patches_by_issue.mem_issueRows z pool engine issue row).mp hrow
    obtain ⟨av, hav, hmatch⟩ := hsound _ hit hhit d hd
    have hnot : issue.anyType = false := by simpa [Issue.specificType] using hspec
    rw [hattrs] at hav
    simp only [hnot, Bool.false_eq_true, if_false, List.mem_singleton] at hav
    subst hav
    rcases hmatch with ⟨h, _⟩ | ⟨_, h⟩
    · cases h
    · rw [hq] at h
      exact ⟨by simpa using h, by simpa using hok hspec⟩
  · intro hany row hrow
    obtain ⟨hit, hhit, d, hd, _, _, _, rfl⟩ :=
      (list_patches_by_issue.mem_issueRows z pool engine issue row).mp hrow
    obtain ⟨av, hav, hmatch⟩ := hsound _ hit hhit d hd
    rw [hattrs] at hav
    simp only [hany, if_true, List.mem_cons, List.mem_singleton, List.mem_nil_iff,
      or_false] at hav
    rcases hav with hav | hav
    · subst hav
      rcases hmatch with ⟨h, _⟩ | ⟨_, h⟩
      · cases h
      · rw [hq] at h
        exact Or.inl (by simpa using h)
    · subst hav
      rcases hmatch with ⟨_, h⟩ | ⟨h, _⟩
      · rw [hq] at h
        exact Or.inr (by simpa using h)
      · cases h

/-- C13 (amended, instance): for `--bugzilla=9999` on scenario A the one row,
bugzilla/99999, has a refId containing 9999 and the type bugzilla. -/
theorem C13_rows_match_id_or_type_witness :
    (∀ row ∈ list_patches_by_issue.issueRows zBugzilla9999 poolScenarioA
        (queryPatches poolScenarioA) ⟨"bugzilla", "9999"⟩,
        containsCI "9999" (row.getD 1 "") = true ∧ row.getD 0 "" = "bugzilla")
    ∧ list_patches_by_issue.issueRows zBugzilla9999 poolScenarioA
        (queryPatches poolScenarioA) ⟨"bugzilla", "9999"⟩
        = [["bugzilla", "99999", "patch-a", "security", "moderate", "---", "needed"]] :=
  ⟨(C13_rows_match_id_or_type zBugzilla9999 poolScenarioA (queryPatches poolScenarioA)
      (queryPatches_matchesSatisfyQuery poolScenarioA) ⟨"bugzilla", "9999"⟩ (by decide)).1
      (by decide),
   by decide⟩

/-! ### Listing: the applicability filter -/

theorem patchIsApplicable_iff (pool : ResPool) (pi : PoolItem) :
    patchIsApplicable pool pi = true
      ↔ pool.validate pi = ValidateValue.BROKEN ∧ pool.isUnwanted pi = false := by
  simp [patchIsApplicable, ResPool.isBroken]

/-- C14: without `--all` every row of the authoritative table and every row of
the fallback table is the row of a query hit whose item satisfies
`patchIsApplicable`; `patchIsApplicable` holds exactly when the validation
state is BROKEN and the item is not locked, which is exactly when the
classifiers give Needed; with `--all` no hit is rejected for its status: every
hit that passes the CLI filter (and, in pass 1, every match of it that passes
the type check) has its row.  A broken and locked patch is left out without
`--all` and listed as unwanted with `--all`. -/
theorem C14_applicability_filter (z : Zypper) (pool : ResPool) (engine : QueryEngine) :
    (z.cOptsCount "all" = 0 →
      (∀ row ∈ (list_patches_by_issue z pool engine).t, ∃ (hit : QueryHit) (d : RefMatch),
          patchIsApplicable pool hit.item = true
          ∧ row = [d.refType, d.refId, (pool.asPatch hit.item).name,
                   patchHighlight z (pool.asPatch hit.item).category,
                   patchHighlight z (pool.asPatch hit.item).severity,
                   interactiveFlags z (pool.asPatch hit.item),
                   i18nPatchStatusAsString z pool hit.item])
      ∧ (∀ row ∈ (list_patches_by_issue z pool engine).t1, ∃ hit : QueryHit,
          patchIsApplicable pool hit.item = true
          ∧ row = [(pool.asPatch hit.item).name,
                   patchHighlight z (pool.asPatch hit.item).category,
                   patchHighlight z (pool.asPatch hit.item).severity,
                   interactiveFlags z (pool.asPatch hit.item),
                   (pool.asPatch hit.item).summary]))
    ∧ (∀ pi : PoolItem, patchIsApplicable pool pi = true
        ↔ pool.validate pi = ValidateValue.BROKEN ∧ pool.isUnwanted pi = false)
    ∧ (∀ pi : PoolItem, patchIsApplicable pool pi = true
        ↔ specClassify (pool.validate pi) (pool.isUnwanted pi) = Status.Needed)
    ∧ (∀ pi : PoolItem, patchIsApplicable pool pi = true
        ↔ xml_patchStatusAsString pool pi = "needed")
    ∧ (∀ pi : PoolItem, patchIsApplicable pool pi = true
        → i18nPatchStatusAsString z pool pi = z.gettext "needed")
    ∧ (z.cOptsCount "all" ≠ 0 →
      (∀ issue ∈ (CliScanIssues z).1,
        ∀ hit ∈ engine (list_patches_by_issue.issueQuery issue), ∀ d ∈ hit.matchList,
          z.cliMatchPatch (pool.asPatch hit.item) = true →
          (issue.specificType = true → d.refType = issue.type) →
          [d.refType, d.refId, (pool.asPatch hit.item).name,
            patchHighlight z (pool.asPatch hit.item).category,
            patchHighlight z (pool.asPatch hit.item).severity,
            interactiveFlags z (pool.asPatch hit.item),
            i18nPatchStatusAsString z pool hit.item]
            ∈ (list_patches_by_issue z pool engine).t)
      ∧ (∀ issue ∈ (list_patches_by_issue z pool engine).pass2,
        ∀ hit ∈ engine (list_patches_by_issue.pass2Query issue),
          z.cliMatchPatch (pool.asPatch hit.item) = true →
          [(pool.asPatch hit.item).name, patchHighlight z (pool.asPatch hit.item).category,
            patchHighlight z (pool.asPatch hit.item).severity,
            interactiveFlags z (pool.asPatch hit.item), (pool.asPatch hit.item).summary]
            ∈ (list_patches_by_issue z pool engine).t1))
    ∧ (patchIsApplicable poolScenarioC 0 = false
        ∧ (list_patches_by_issue zBugzilla12345 poolScenarioC (queryPatches poolScenarioC)).t
            = []
        ∧ (list_patches_by_issue zBugzilla12345All poolScenarioC
            (queryPatches poolScenarioC)).t
            = [["bugzilla", "12345", "patch-c", "recommended", "moderate", "---",
                "unwanted"]]) := by
  refine ⟨?_, patchIsApplicable_iff pool, ?_, ?_, ?_, ?_, by decide⟩
  · intro hall
    constructor
    · intro row hrow
      obtain ⟨issue, _, hmem⟩ := (list_patches_by_issue.mem_t z pool engine row).mp hrow
      obtain ⟨hit, _, d, _, hneed, _, _, hrow⟩ :=
        (list_patches_by_issue.mem_issueRows z pool engine issue row).mp hmem
      exact ⟨hit, d, hneed hall, hrow⟩
    · intro row hrow
      obtain ⟨issue, _, _, hmem⟩ := (list_patches_by_issue.mem_t1 z pool engine row).mp hrow
      obtain ⟨hit, _, hneed, _, hrow⟩ :=
        (list_patches_by_issue.mem_pass2Rows z pool engine issue row).mp hmem
      exact ⟨hit, hneed hall, hrow⟩
  · intro pi
    rw [patchIsApplicable_iff]
    cases hv : pool.validate pi <;> cases hl : pool.isUnwanted pi <;> simp [specClassify]
  · intro pi
    rw [patchIsApplicable_iff]
    unfold xml_patchStatusAsString
    cases hv : pool.validate pi <;> cases hl : pool.isUnwanted pi <;> simp
  · intro pi happ
    obtain ⟨hv, hl⟩ := (patchIsApplicable_iff pool pi).mp happ
    simp [i18nPatchStatusAsString, hv, hl]
  · intro hall
    constructor
    · intro issue hissue hit hhit d hd hcli hok
      refine (list_patches_by_issue.mem_t z pool engine _).mpr ⟨issue, hissue, ?_⟩
      exact (list_patches_by_issue.mem_issueRows z pool engine issue _).mpr
        ⟨hit, hhit, d, hd, fun h => absurd h hall, hcli, hok, rfl⟩
    · intro issue hissue hit hhit hcli
      exact list_patches_by_issue.t1_row_of_hit z pool engine issue hissue hit hhit
        (fun h => absurd h hall) hcli

/-! ### Patch check -/

theorem patch_check.body_counts (pool : ResPool) (updatestackOnly : Bool)
    (c : PatchCounts) (pi : PoolItem) :
    (patch_check.body pool updatestackOnly c pi).patches_count
        = c.patches_count + (if (patchIsApplicable pool pi
            && (!updatestackOnly || (pool.asPatch pi).restartSuggested)) = true then 1 else 0)
    ∧ (patch_check.body pool updatestackOnly c pi).security_patches_count
        = c.security_patches_count + (if (patchIsApplicable pool pi
            && (!updatestackOnly || (pool.asPatch pi).restartSuggested)
            && (pool.asPatch pi).isSecurity) = true then 1 else 0)
    ∧ (patch_check.body pool updatestackOnly c pi).lockedPatches
        = c.lockedPatches
          + (if (pool.isBroken pi && pool.isUnwanted pi) = true then 1 else 0) := by
  unfold patch_check.body patchIsApplicable
  cases hb : pool.isBroken pi <;> cases hu : pool.isUnwanted pi
    <;> cases updatestackOnly <;> cases hr : (pool.asPatch pi).restartSuggested
    <;> cases hs : (pool.asPatch pi).isSecurity
    <;> simp [hr, hs]

theorem patch_check.loop_counts (pool : ResPool) (updatestackOnly : Bool)
    (patches : List PoolItem) (counts : PatchCounts) :
    (patch_check.loop pool updatestackOnly patches counts).patches_count
        = counts.patches_count + patches.countP (fun pi =>
            patchIsApplicable pool pi
              && (!updatestackOnly || (pool.asPatch pi).restartSuggested))
    ∧ (patch_check.loop pool updatestackOnly patches counts).security_patches_count
        = counts.security_patches_count + patches.countP (fun pi =>
            patchIsApplicable pool pi
              && (!updatestackOnly || (pool.asPatch pi).restartSuggested)
              && (pool.asPatch pi).isSecurity)
    ∧ (patch_check.loop pool updatestackOnly patches counts).lockedPatches
        = counts.lockedPatches + patches.countP (fun pi =>
            pool.isBroken pi && pool.isUnwanted pi) := by
  induction patches generalizing counts with
  | nil => simp [patch_check.loop]
  | cons pi patches ih =>
    have hcons : patch_check.loop pool updatestackOnly (pi :: patches) counts
        = patch_check.loop pool updatestackOnly patches
            (patch_check.body pool updatestackOnly counts pi) := rfl
    obtain ⟨h1, h2, h3⟩ := ih (patch_check.body pool updatestackOnly counts pi)
    obtain ⟨b1, b2, b3⟩ := patch_check.body_counts pool updatestackOnly counts pi
    rw [hcons, h1, h2, h3, b1, b2, b3]
    simp only [List.countP_cons]
    refine ⟨by omega, by omega, by omega⟩

theorem countP_split_and {α : Type} (p q : α → Bool) (l : List α) :
    l.countP (fun a => p a && !q a) + l.countP (fun a => p a && q a) = l.countP p := by
  induction l with
  | nil => rfl
  | cons a l ih =>
    simp only [List.countP_cons]
    cases hp : p a <;> cases hq : q a <;> simp <;> omega

/-- C15: after `patch_check`, the locked counter is the number of patches that
are broken and unwanted.  Without `--updatestack-only`, `patches_count` is the
number of patches for which `patchIsApplicable` holds, it adds up with the
locked counter to the number of broken patches, and `security_patches_count` is
the number of applicable patches of category security.  With
`--updatestack-only` both counts are the same numbers restricted to patches
with `restartSuggested`.  In both cases `security_patches_count` is at most
`patches_count`. -/
theorem C15_patch_check_counts (z : Zypper) (msg : Messages) (pool : ResPool) :
    (patch_check z msg pool).1.lockedPatches
        = (pool.byKind ResKind.patch).countP (fun pi => pool.isBroken pi && pool.isUnwanted pi)
    ∧ (z.cOptsCount "updatestack-only" = 0 →
        (patch_check z msg pool).1.patches_count
            = (pool.byKind ResKind.patch).countP (patchIsApplicable pool)
        ∧ (patch_check z msg pool).1.patches_count + (patch_check z msg pool).1.lockedPatches
            = (pool.byKind ResKind.patch).countP pool.isBroken
        ∧ (patch_check z msg pool).1.security_patches_count
            = (pool.byKind ResKind.patch).countP (fun pi =>
                patchIsApplicable pool pi && (pool.asPatch pi).isSecurity))
    ∧ (z.cOptsCount "updatestack-only" ≠ 0 →
        (patch_check z msg pool).1.patches_count
            = (pool.byKind ResKind.patch).countP (fun pi =>
                patchIsApplicable pool pi && (pool.asPatch pi).restartSuggested)
        ∧ (patch_check z msg pool).1.security_patches_count
            = (pool.byKind ResKind.patch).countP (fun pi =>
                patchIsApplicable pool pi && (pool.asPatch pi).restartSuggested
                  && (pool.asPatch pi).isSecurity))
    ∧ (patch_check z msg pool).1.security_patches_count
        ≤ (patch_check z msg pool).1.patches_count
    ∧ ((patch_check zPlain plainMessages poolFivePatches).1 = ⟨3, 2, 1⟩
        ∧ (patch_check zUpdatestackOnly plainMessages poolFivePatches).1 = ⟨1, 1, 1⟩) := by
  obtain ⟨h1, h2, h3⟩ := patch_check.loop_counts pool (z.cOptsCount "updatestack-only" != 0)
    (pool.byKind ResKind.patch) ⟨0, 0, 0⟩
  have e1 : (patch_check z msg pool).1.patches_count
      = (patch_check.loop pool (z.cOptsCount "updatestack-only" != 0)
          (pool.byKind ResKind.patch) ⟨0, 0, 0⟩).patches_count := rfl
  have e2 : (patch_check z msg pool).1.security_patches_count
      = (patch_check.loop pool (z.cOptsCount "updatestack-only" != 0)
          (pool.byKind ResKind.patch) ⟨0, 0, 0⟩).security_patches_count := rfl
  have e3 : (patch_check z msg pool).1.lockedPatches
      = (patch_check.loop pool (z.cOptsCount "updatestack-only" != 0)
          (pool.byKind ResKind.patch) ⟨0, 0, 0⟩).lockedPatches := rfl
  rw [e1, e2, e3, h1, h2, h3]
  simp only [Nat.zero_add]
  refine ⟨trivial, ?_, ?_, ?_, by decide⟩
  · intro hzero
    have hb : (z.cOptsCount "updatestack-only" != 0) = false := by simp [hzero]
    simp only [hb, Bool.not_false, Bool.true_or, Bool.and_true]
    refine ⟨trivial, ?_, trivial⟩
    exact countP_split_and pool.isBroken pool.isUnwanted (pool.byKind ResKind.patch)
  · intro hne
    have hb : (z.cOptsCount "updatestack-only" != 0) = true := by simp [hne]
    simp only [hb, Bool.not_true, Bool.false_or]
    exact ⟨trivial, trivial⟩
  · apply List.countP_mono_left
    intro pi _ h
    simp only [Bool.and_eq_true] at h
    simp only [Bool.and_eq_true]
    exact h.1

end ZypperUpdate

